import Mathlib

/-
Verification development for the streamline generator in
src/functions/s111_to_streamlines.py (Jobard-Lefer evenly-spaced streamline
placement on a lat/lon grid with geodesic arithmetic).

The development has two layers.

Namespace `Core` is a real-number shallow embedding of the trigonometric
primitives of the source: `interpolate`, `positionFromDistanceCourse`, the
driver-initialization computation of `minLat` and `pointsGridCellSpacing`
(s111_to_streamlines.py lines 138-150), and the `FlowField.__init__`
constructor.  Python's IEEE-754 doubles are modelled by ℝ, and Python's
`math.atan2 y x` by the argument of the complex number x + y·I.

Namespace `JL` is an executable rational-number embedding of the driver
machinery: `FlowField.transport`, the occupancy grid, `isPointGood`,
`isStreamPointGood`, `addStreamline`, `step`, `extend` and `generate`.  The
two geodesic primitives (`positionFromDistanceCourse` and the distance part
of `distanceCourseFromRad`) enter that machinery only as oracles, so they are
abstracted into a `Geom` record of ℚ-valued functions; everything else is a
line-by-line translation of the source.  Python's unbounded `while` loops are
given explicit fuel; every theorem below either holds for all fuels or is
evaluated at a concrete fuel large enough for the run it describes.
-/

namespace Core

/-- atan2 as used by Python's `math.atan2(y, x)`: the principal argument of
the complex number `x + y*I`, taking values in (-π, π]. -/
noncomputable def atan2 (y x : ℝ) : ℝ := Complex.arg (Complex.mk x y)

/-- EARTH_RADIUS constant from the top of the source file (metres). -/
noncomputable def EARTH_RADIUS : ℝ := 6371000

/-- Point: a 2-D coordinate pair; degrees or radians by context
(source class `Point`). -/
structure Point where
  x : ℝ
  y : ℝ

/-- mathRadians is Python's `math.radians`: degrees to radians. -/
noncomputable def mathRadians (d : ℝ) : ℝ := d * Real.pi / 180

/-- Point.radians returns a copy of the point expressed in radians
(source `Point.radians`). -/
noncomputable def Point.radians (p : Point) : Point :=
  ⟨mathRadians p.x, mathRadians p.y⟩

/-- Flow: a (magnitude, direction-in-radians) pair (source class `Flow`). -/
structure Flow where
  magnitude : ℝ
  direction : ℝ

/-- interpolate, translated clause by clause from the source `interpolate`
function (lines 425-458): blend two optional Flows with weight 1-p on the
first and p on the second, in Cartesian (u, v) components, then re-polarize
with sqrt/atan2. -/
noncomputable def interpolate : Option Flow → Option Flow → ℝ → Option Flow
  | none, none, _ => none
  | none, some w2, p =>
    let u2 := Real.sin w2.direction * w2.magnitude * p
    let v2 := Real.cos w2.direction * w2.magnitude * p
    some ⟨Real.sqrt (u2 * u2 + v2 * v2), atan2 u2 v2⟩
  | some w1, none, p =>
    let ip := 1 - p
    let u1 := Real.sin w1.direction * w1.magnitude * ip
    let v1 := Real.cos w1.direction * w1.magnitude * ip
    some ⟨Real.sqrt (u1 * u1 + v1 * v1), atan2 u1 v1⟩
  | some w1, some w2, p =>
    let ip := 1 - p
    let u1 := Real.sin w1.direction * w1.magnitude * ip
    let v1 := Real.cos w1.direction * w1.magnitude * ip
    let u2 := Real.sin w2.direction * w2.magnitude * p
    let v2 := Real.cos w2.direction * w2.magnitude * p
    let u := u1 + u2
    let v := v1 + v2
    some ⟨Real.sqrt (u * u + v * v), atan2 u v⟩

/-- positionFromDistanceCourse (source lines 675-710): direct geodetic
problem on the sphere of radius EARTH_RADIUS; input point in radians,
distance in metres, course in radians. -/
noncomputable def positionFromDistanceCourse
    (p1_rad : Point) (distance : ℝ) (course_rad : ℝ) : Point :=
  let slat1 := Real.sin p1_rad.y
  let clat1 := Real.cos p1_rad.y
  let central_angle := distance / EARTH_RADIUS
  let cca := Real.cos central_angle
  let sca := Real.sin central_angle
  let ccourse := Real.cos course_rad
  let scourse := Real.sin course_rad
  let lat2 := atan2 (slat1 * cca + clat1 * sca * ccourse)
      (Real.sqrt ((clat1 * cca - slat1 * sca * ccourse) ^ 2 + (sca * scourse) ^ 2))
  let dlon := atan2 (sca * scourse) (clat1 * cca - slat1 * sca * ccourse)
  ⟨p1_rad.x + dlon, lat2⟩

/-- distanceCourseFromRad (source lines 640-672): great-circle distance in
metres and initial course between two points given in radians. -/
noncomputable def distanceCourseFromRad (p1 p2 : Point) : ℝ × ℝ :=
  let dlon := p2.x - p1.x
  let clat1 := Real.cos p1.y
  let clat2 := Real.cos p2.y
  let slat1 := Real.sin p1.y
  let slat2 := Real.sin p2.y
  let tlat2 := Real.tan p2.y
  let cdlon := Real.cos dlon
  let sdlon := Real.sin dlon
  let y := Real.sqrt ((clat2 * sdlon) ^ 2 + (clat1 * slat2 - slat1 * clat2 * cdlon) ^ 2)
  let x := slat1 * slat2 + clat1 * clat2 * cdlon
  let central_angle := atan2 y x
  let course := atan2 sdlon (clat1 * tlat2 - slat1 * cdlon)
  (central_angle * EARTH_RADIUS, course)

/-- genMinLat: the latitude closest to the equator inside the field bounds,
as computed by `JobardLefer.generate` lines 138-141 (zero when the bounds
straddle the equator with strict inequalities on both sides). -/
noncomputable def genMinLat (bmin bmax : Point) : ℝ :=
  if bmin.y < 0 ∧ 0 < bmax.y then 0 else min |bmin.y| |bmax.y|

/-- genPointsGridCellSpacing: the occupancy-grid cell spacing computed by
`JobardLefer.generate` lines 144-150.  Note the course of the x-component
is the literal constant 1.5708 from the source, not π/2. -/
noncomputable def genPointsGridCellSpacing (minLat dSep : ℝ) : Point :=
  let p0 : Point := ⟨0, minLat⟩
  let pdx := positionFromDistanceCourse p0 dSep 1.5708
  let pdy := positionFromDistanceCourse p0 dSep 0.0
  ⟨pdx.x - p0.x, pdy.y - p0.y⟩

/-- Modelled from the spec: the claimed cell spacing
`(positionFromDistanceCourse((0, minLat), dSep, π/2).x − 0,
positionFromDistanceCourse((0, minLat), dSep, 0).y − minLat)`, written with
the course of the x-component exactly π/2 as the claim states.  This
definition follows the spec's words and exists only to be compared with
`genPointsGridCellSpacing`, which follows the source. -/
noncomputable def specPointsGridCellSpacing (minLat dSep : ℝ) : Point :=
  ⟨(positionFromDistanceCourse ⟨0, minLat⟩ dSep (Real.pi / 2)).x - 0,
   (positionFromDistanceCourse ⟨0, minLat⟩ dSep 0).y - minLat⟩

/-- Bounds: an optionally-empty 2-D bounding box (source class `Bounds`);
`none` is the empty box, otherwise the (min, max) corner pair. -/
structure Bounds where
  minmax : Option (Point × Point)

/-- Bounds.add (source lines 769-782): expand (or initialize) the box to
include a point. -/
noncomputable def Bounds.add (b : Bounds) (p : Point) : Bounds :=
  match b.minmax with
  | none => ⟨some (p, p)⟩
  | some (mn, mx) =>
    ⟨some (⟨min mn.x p.x, min mn.y p.y⟩, ⟨max mx.x p.x, max mx.y p.y⟩)⟩

/-- Metadata consumed by the `FlowField` constructor (`gen_metadata`,
lines 467-477): spacings and bounds in degrees, point counts as integers. -/
structure Metadata where
  gridSpacingLongitudinal : ℝ
  gridSpacingLatitudinal : ℝ
  northBoundLatitude : ℝ
  southBoundLatitude : ℝ
  eastBoundLongitude : ℝ
  westBoundLongitude : ℝ
  numPointsLongitudinal : ℤ
  numPointsLatitudinal : ℤ

/-- FieldError: the error kind the spec says construction signals. -/
inductive FieldError
  | invalidField

/-- FlowField (metadata-derived part): what `FlowField.__init__` computes
and stores.  The sample array and timestep are stored unchanged by the
constructor and are omitted here; they play no role in construction. -/
structure FlowField where
  metadata : Metadata
  dx : ℝ
  dy : ℝ
  minPoint : Point
  maxPoint : Point
  bounds : Bounds

/-- FlowField.init: line-by-line translation of `FlowField.__init__`
(source lines 485-511).  The constructor body is straight-line code: it
converts the spacings and corner points from degrees to radians and builds
the bounds; it contains no validation and no raise, so the translation
into `Except` never returns an error. -/
noncomputable def FlowField.init (metadata : Metadata) : Except FieldError FlowField :=
  let dx := mathRadians metadata.gridSpacingLongitudinal
  let dy := mathRadians metadata.gridSpacingLatitudinal
  let minPoint := (Point.mk metadata.westBoundLongitude metadata.southBoundLatitude).radians
  let maxPoint := (Point.mk metadata.eastBoundLongitude metadata.northBoundLatitude).radians
  let bounds := ((Bounds.mk none).add minPoint).add maxPoint
  Except.ok { metadata := metadata, dx := dx, dy := dy,
              minPoint := minPoint, maxPoint := maxPoint, bounds := bounds }

end Core

namespace JL

/-- Point in the driver layer: rational coordinates plus the optional zoom
level attribute the driver sets on points (`seed.level = level` in
`Streamline.__init__`, `ip.level = self.level` in `step`).  The lazily
attached flow sample of the source is not stored on the point: it is a pure
function of the coordinates (`getFlow` has no other inputs), so the cache is
observationally the lookup `sampleP` below. -/
structure Point where
  x : ℚ
  y : ℚ
  level : Option ℤ
deriving DecidableEq, Repr

/-- Flow in the driver layer: (magnitude, direction) over ℚ. -/
structure Flow where
  magnitude : ℚ
  direction : ℚ
deriving DecidableEq, Repr

/-- Geom: the two geodesic primitives the driver machinery consults, taken
as oracles over ℚ (their real-trigonometry definitions live in namespace
`Core`): `pos p d c` stands for `positionFromDistanceCourse(p, d, c)` and
`dist p q` for `distanceCourseFromRad(p, q)["distance"]`.  The driver's
control flow uses them only through these call sites. -/
structure Geom where
  pos : ℚ × ℚ → ℚ → ℚ → ℚ × ℚ
  dist : ℚ × ℚ → ℚ × ℚ → ℚ

/-- FieldI: what the driver reads from a `FlowField`: the pure flow sampler
behind `getFlow`/`pointHasValue`, the two corner points of the field (in
radians, as stored by the constructor) and the grid spacings dx, dy in
radians. -/
structure FieldI where
  sample : ℚ → ℚ → Option Flow
  minPoint : ℚ × ℚ
  maxPoint : ℚ × ℚ
  dx : ℚ
  dy : ℚ

/-- junkP: a default Point used as the (never semantically relevant)
default of total list indexing; the source indexes only in range. -/
def junkP : Point := ⟨0, 0, none⟩

/-- junkFlow: default Flow for total lookups of attached samples. -/
def junkFlow : Flow := ⟨0, 0⟩

/-- mkPt wraps a coordinate pair produced by `Geom.pos` as a fresh Point
(a Python Point created by `positionFromDistanceCourse` has no level). -/
def mkPt (c : ℚ × ℚ) : Point := ⟨c.1, c.2, none⟩

/-- sampleP: `pointHasValue`'s cached flow attachment as a pure lookup of
the point's coordinates. -/
def sampleP (F : ℚ → ℚ → Option Flow) (p : Point) : Option Flow := F p.x p.y

/-- mathPiQ: the exact rational value of the IEEE-754 double `math.pi`
(7074237752028440 / 2^51 in lowest terms). -/
def mathPiQ : ℚ := 884279719003555 / 281474976710656

/-- TransportOptions: the options dict passed to `FlowField.transport`. -/
structure TransportOptions where
  distance : ℚ
  steps : ℕ
  minimumMagnitude : ℚ

/-- transportAux: the while-loop of `FlowField.transport` (source lines
529-554).  Each iteration either appends exactly one point or terminates,
so the remaining step count `options.steps - len(ret)` is exact fuel.
Termination mirrors the source: stop (without appending) when the current
point lacks a sample or its magnitude is not above the minimum; stop when
the half-step midpoint fails the same test. -/
def transportAux (F : ℚ → ℚ → Option Flow) (geom : Geom) (stepSize minMag : ℚ) :
    ℕ → Point → List Point
  | 0, _ => []
  | n + 1, lastPoint =>
    match sampleP F lastPoint with
    | none => []
    | some fl =>
      if minMag < fl.magnitude then
        let pMid := mkPt (geom.pos (lastPoint.x, lastPoint.y) (stepSize / 2) fl.direction)
        match sampleP F pMid with
        | none => []
        | some flMid =>
          if minMag < flMid.magnitude then
            let pi := mkPt (geom.pos (lastPoint.x, lastPoint.y) stepSize flMid.direction)
            pi :: transportAux F geom stepSize minMag n pi
          else []
      else []

/-- transport: `FlowField.transport` (source lines 513-554).  The step size
is distance / steps; in Python `steps = 0` raises ZeroDivisionError, here
ℚ-division by zero yields 0 and the loop body never runs. -/
def transport (F : ℚ → ℚ → Option Flow) (geom : Geom) (startPoint : Point)
    (options : TransportOptions) : List Point :=
  transportAux F geom (options.distance / (options.steps : ℚ)) options.minimumMagnitude
    options.steps startPoint

/-- heunStep: one advance of the midpoint-Heun rule exactly as a single
iteration of `transport` performs it: from point p, half a step in p's flow
direction gives pMid, then a full step in pMid's flow direction; `none` when
the current point or the midpoint lacks a flow sample or has magnitude not
exceeding the minimum.  Used to state the characterization of `transport`. -/
def heunStep (F : ℚ → ℚ → Option Flow) (geom : Geom) (stepSize minMag : ℚ)
    (p : Point) : Option Point :=
  match sampleP F p with
  | none => none
  | some fl =>
    if minMag < fl.magnitude then
      let pMid := mkPt (geom.pos (p.x, p.y) (stepSize / 2) fl.direction)
      match sampleP F pMid with
      | none => none
      | some flMid =>
        if minMag < flMid.magnitude then
          some (mkPt (geom.pos (p.x, p.y) stepSize flMid.direction))
        else none
    else none

/-- Bounds over ℚ (source class `Bounds`): `none` is the empty box. -/
structure Bounds where
  minmax : Option ((ℚ × ℚ) × (ℚ × ℚ))
deriving DecidableEq, Repr

/-- Bounds.add (source lines 769-782). -/
def Bounds.add (b : Bounds) (p : Point) : Bounds :=
  match b.minmax with
  | none => ⟨some ((p.x, p.y), (p.x, p.y))⟩
  | some (mn, mx) =>
    ⟨some ((min mn.1 p.x, min mn.2 p.y), (max mx.1 p.x, max mx.2 p.y))⟩

/-- Streamline (source class `Streamline`). -/
structure Streamline where
  points : List Point
  level : ℤ
  seed_index : ℕ
  index : Option ℕ
  bounds : Bounds
deriving DecidableEq, Repr

/-- Streamline.init: `Streamline.__init__` (source lines 35-41).  The point
list starts as the seed (tagged with the level); the bounds start EMPTY —
the constructor does not add the seed to the bounds. -/
def Streamline.init (seed : Point) (level : ℤ) : Streamline :=
  { points := [{ seed with level := some level }], level := level,
    seed_index := 0, index := none, bounds := ⟨none⟩ }

/-- Streamline.addPoint (source lines 43-50): append for direction > 0,
prepend (and shift seed_index) otherwise; grow the bounds by p. -/
def Streamline.addPoint (sl : Streamline) (p : Point) (direction : ℤ) : Streamline :=
  if direction > 0 then
    { sl with points := sl.points ++ [p], bounds := sl.bounds.add p }
  else
    { sl with
      points := p :: sl.points
      seed_index := sl.seed_index + 1
      bounds := sl.bounds.add p }

/-- junkSl: default Streamline for total list indexing. -/
def junkSl : Streamline := ⟨[junkP], 0, 0, none, ⟨none⟩⟩

/-- Entry of the occupancy grid: a point plus the owning streamline index
(source `addPoint`, line 291). -/
structure Entry where
  point : Point
  streamIndex : ℕ
deriving DecidableEq, Repr

/-- Row: one row `pointsGrid[yi]` of the sparse points grid: an association
list from column index to the cell's entry list, in insertion order (a
Python dict with integer keys). -/
abbrev Row := List (ℤ × List Entry)

/-- Grid: the sparse points grid `pointsGrid`: an association list from row
index to Row, in insertion order (the Python dict of dicts). -/
abbrev Grid := List (ℤ × Row)

/-- rowFind: dict lookup `row[xi]`, `none` when `xi not in row`. -/
def rowFind : Row → ℤ → Option (List Entry)
  | [], _ => none
  | (j, es) :: rest, xi => if j = xi then some es else rowFind rest xi

/-- gridFind: dict lookup `pointsGrid[yi]`, `none` when
`yi not in pointsGrid`. -/
def gridFind : Grid → ℤ → Option Row
  | [], _ => none
  | (i, row) :: rest, yi => if i = yi then some row else gridFind rest yi

/-- rowInsert: `pointsGrid[yi][xi].append(e)`, creating the cell on demand
(dicts keep insertion order; only per-cell order is ever observed). -/
def rowInsert : Row → ℤ → Entry → Row
  | [], xi, e => [(xi, [e])]
  | (j, es) :: rest, xi, e =>
    if j = xi then (j, es ++ [e]) :: rest else (j, es) :: rowInsert rest xi e

/-- gridInsert: insert an entry at cell (yi, xi), creating the row on
demand.  The source also caches `pointsGridCellWidthFactors[yi]` when it
creates row yi; that cached value is the pure function `widthFactor` of yi,
so the cache itself needs no state (rows are never deleted and the factor
of an existing row always equals `widthFactor` at its index). -/
def gridInsert : Grid → ℤ → ℤ → Entry → Grid
  | [], yi, xi, e => [(yi, [(xi, [e])])]
  | (i, row) :: rest, yi, xi, e =>
    if i = yi then (i, rowInsert row xi e) :: rest
    else (i, row) :: gridInsert rest yi xi e

/-- Params: the constants set by `JobardLefer.__init__` (lines 92-98). -/
structure Params where
  separationFactor : ℚ
  testFactor : ℚ
  iSteps : ℕ
  dSepMaxFactor : ℚ
  minMag : ℚ

/-- defaultParams: separationFactor 1.5, testFactor 0.5, iSteps 5,
dSepMaxFactor 3.75, minMag 0.0001. -/
def defaultParams : Params := ⟨3/2, 1/2, 5, 15/4, 1/10000⟩

/-- Ctx: the driver attributes fixed for the whole `generate` call and read
by the inner machinery: the geometry oracles, the field sampler, bounds
minimum, `pointsGridCellSpacing`, dSep, dTest, iSteps and minMag. -/
structure Ctx where
  geom : Geom
  F : ℚ → ℚ → Option Flow
  bmin : ℚ × ℚ
  spacing : ℚ × ℚ
  dSep : ℚ
  dTest : ℚ
  iSteps : ℕ
  minMag : ℚ

/-- intRange a b is Python's `range(a, b)` over ℤ. -/
def intRange (a b : ℤ) : List ℤ := (List.range (b - a).toNat).map (fun n => a + n)

/-- stepRange n s is Python's `range(0, n, s)` for s ≥ 1 (the source only
uses positive steps; `range` with step 0 raises in Python, here s = 0 gives
the empty list because ℕ-division by zero is zero). -/
def stepRange (n s : ℕ) : List ℕ := (List.range ((n + s - 1) / s)).map (fun k => k * s)

/-- getPointsGridIndex (source lines 259-265). -/
def getPointsGridIndex (ctx : Ctx) (p : Point) : ℤ × ℤ :=
  (⌊(p.x - ctx.bmin.1) / ctx.spacing.1⌋, ⌊(p.y - ctx.bmin.2) / ctx.spacing.2⌋)

/-- widthFactor: the value `pointsGridCellWidthFactors[yi]` computed on
first insertion into row yi (source lines 282-288): how many cell widths
one dSep spans at that row's latitude, via the literal course 1.5708. -/
def widthFactor (ctx : Ctx) (yi : ℤ) : ℚ :=
  let p0 : ℚ × ℚ := (0, (yi : ℚ) * ctx.spacing.2 + ctx.bmin.2)
  (ctx.geom.pos p0 ctx.dSep 1.5708).1 / ctx.spacing.1

/-- addPointGrid: `JobardLefer.addPoint` (source lines 267-291): append the
entry to cell `pointsGrid[yi][xi]`, creating row and cell on demand. -/
def addPointGrid (ctx : Ctx) (grid : Grid) (p : Point) (streamIndex : ℕ) : Grid :=
  let xi := (getPointsGridIndex ctx p).1
  let yi := (getPointsGridIndex ctx p).2
  gridInsert grid yi xi ⟨p, streamIndex⟩

/-- isPointGood: `JobardLefer.isPointGood` (source lines 293-322): the point
must have a flow sample, and no grid entry of a different streamline within
the scanned window of rows `[yi-levelFactor, yi+levelFactor]` and columns
`[xi-lFactor, xi+lFactor]` (with `lFactor = ceil(levelFactor*widthFactor)`,
computed only for rows present in the grid) may be closer than sep. -/
def isPointGood (ctx : Ctx) (lf : ℕ) (grid : Grid) (p : Point) (sep : ℚ)
    (streamIndex : Option ℕ) : Bool :=
  if (sampleP ctx.F p).isSome then
    let xi := (getPointsGridIndex ctx p).1
    let yi := (getPointsGridIndex ctx p).2
    (intRange (yi - lf) (yi + lf + 1)).all fun i =>
      match gridFind grid i with
      | none => true
      | some row =>
        let lFactor : ℤ := ⌈(lf : ℚ) * widthFactor ctx i⌉
        (intRange (xi - lFactor) (xi + lFactor + 1)).all fun j =>
          match rowFind row j with
          | none => true
          | some entries =>
            entries.all fun gp =>
              !(decide (some gp.streamIndex ≠ streamIndex) &&
                decide (ctx.geom.dist (gp.point.x, gp.point.y) (p.x, p.y) < sep))
  else false

/-- isStreamPointGood: `JobardLefer.isStreamPointGood` (source lines
324-335): the self-proximity test of a candidate endpoint p against every
`iSteps*levelFactor`-th existing point (only when the accumulated chunk is
full), every `iSteps`-th existing point, and every `iSteps`-th accumulated
point except the tail region. -/
def isStreamPointGood (ctx : Ctx) (lf : ℕ) (sl : Streamline) (p : Point)
    (extraPoints : List Point) : Bool :=
  (if extraPoints.length = lf * ctx.iSteps then
    (stepRange sl.points.length (ctx.iSteps * lf)).all fun i =>
      !(decide (ctx.geom.dist ((sl.points.getD i junkP).x, (sl.points.getD i junkP).y)
          (p.x, p.y) < ctx.dTest))
  else true) &&
  ((stepRange sl.points.length ctx.iSteps).all fun i =>
    !(decide (ctx.geom.dist ((sl.points.getD i junkP).x, (sl.points.getD i junkP).y)
        (p.x, p.y) < ctx.dTest))) &&
  ((stepRange (extraPoints.length - ctx.iSteps) ctx.iSteps).all fun i =>
    !(decide (ctx.geom.dist ((extraPoints.getD i junkP).x, (extraPoints.getD i junkP).y)
        (p.x, p.y) < ctx.dTest)))

/-- St: the mutable driver state threaded through `generate`: the accepted
streamline list and the occupancy grid. -/
structure St where
  streamlines : List Streamline
  grid : Grid

/-- addStreamline: `JobardLefer.addStreamline` (source lines 337-347): if
the streamline has no index yet, assign it the next index, append it, and
insert every `iSteps`-th of its points into the grid. -/
def addStreamline (ctx : Ctx) (st : St) (sl : Streamline) : St :=
  match sl.index with
  | some _ => st
  | none =>
    let idx := st.streamlines.length
    let sl2 := { sl with index := some idx }
    let grid2 := (stepRange sl2.points.length ctx.iSteps).foldl
      (fun g i => addPointGrid ctx g (sl2.points.getD i junkP) idx) st.grid
    { streamlines := st.streamlines ++ [sl2], grid := grid2 }

/-- chunkLoop: the candidate-collection while-loop of `JobardLefer.step`
(source lines 392-411).  Each successful iteration appends exactly `iSteps`
points (a transport call returning fewer aborts), so `levelFactor` is exact
fuel for the loop bound `len(steps) < iSteps*levelFactor`.  Returns the
final pLast (None on abort) and the accumulated candidate list. -/
def chunkLoop (ctx : Ctx) (lf : ℕ) (grid : Grid) (sl : Streamline) (direction : ℤ) :
    ℕ → Point → List Point → Option Point × List Point
  | 0, pLast, steps => (some pLast, steps)
  | fuel + 1, pLast, steps =>
    if steps.length < ctx.iSteps * lf then
      let cand := transport ctx.F ctx.geom pLast
        ⟨ctx.dSep * (direction : ℚ), ctx.iSteps, ctx.minMag⟩
      if cand.length = ctx.iSteps then
        if cand.all (fun ip => isPointGood ctx lf grid ip (ctx.dTest * (lf : ℚ)) sl.index) then
          let pLast2 := cand.getLastD pLast
          let steps2 := steps ++ cand
          if isStreamPointGood ctx lf sl pLast2 steps2 then
            chunkLoop ctx lf grid sl direction fuel pLast2 steps2
          else (none, steps2)
        else (none, steps)
      else (none, steps)
    else (some pLast, steps)

/-- commitSteps: the commit loop of `JobardLefer.step` (source lines
412-417): for each collected candidate, set its level to the driver's
current level, insert it into the grid under the streamline's index when
the streamline is already accepted, and add it to the streamline. -/
def commitSteps (ctx : Ctx) (level : ℤ) (direction : ℤ) (steps : List Point)
    (acc : Grid × Streamline) : Grid × Streamline :=
  steps.foldl (fun (acc : Grid × Streamline) ip =>
    let ip2 := { ip with level := some level }
    let g2 := match acc.2.index with
      | some k => addPointGrid ctx acc.1 ip2 k
      | none => acc.1
    (g2, acc.2.addPoint ip2 direction)) acc

/-- step: `JobardLefer.step` (source lines 368-422): try to extend sl by a
chunk of `iSteps*levelFactor` points in the given direction.  On success the
chunk is committed by `commitSteps`; on failure nothing is committed. -/
def step (ctx : Ctx) (level : ℤ) (lf : ℕ) (grid : Grid) (sl : Streamline)
    (direction : ℤ) : Bool × Grid × Streamline :=
  let p0 := if direction > 0 then sl.points.getLastD junkP else sl.points.headD junkP
  if (sampleP ctx.F p0).isSome then
    match chunkLoop ctx lf grid sl direction lf p0 [] with
    | (some _, steps) =>
      let gs := commitSteps ctx level direction steps (grid, sl)
      (true, gs.1, gs.2)
    | (none, _) => (false, grid, sl)
  else (false, grid, sl)

/-- extendDir: one direction of `JobardLefer.extend`'s `while ok` loop
(source lines 355-365), with fuel for the unbounded while.  Returns the
updated grid and streamline and whether any step succeeded. -/
def extendDir (ctx : Ctx) (level : ℤ) (lf : ℕ) (direction : ℤ) :
    ℕ → Grid → Streamline → Grid × Streamline × Bool
  | 0, grid, sl => (grid, sl, false)
  | fuel + 1, grid, sl =>
    let r := step ctx level lf grid sl direction
    if r.1 then
      let r2 := extendDir ctx level lf direction fuel r.2.1 r.2.2
      (r2.1, r2.2.1, true)
    else (r.2.1, r.2.2, false)

/-- extend: `JobardLefer.extend` (source lines 349-366): step forward until
failure, then backward until failure. -/
def extend (ctx : Ctx) (level : ℤ) (lf : ℕ) (fuel : ℕ) (grid : Grid)
    (sl : Streamline) : Grid × Streamline × Bool :=
  let f := extendDir ctx level lf 1 fuel grid sl
  let b := extendDir ctx level lf (-1) fuel f.1 f.2.1
  (b.1, b.2.1, f.2.2 || b.2.2)

/-- cornerSeeds: the two innermost `for i ... for j ...` loops of the seed
pre-generation (source lines 186-196), in Python's order
(i,j) = (-1,-1), (-1,1), (1,-1), (1,1); a seed is kept when the field has a
value at it. -/
def cornerSeeds (F : ℚ → ℚ → Option Flow) (cx cy x y : ℚ) : List Point :=
  ([((-1 : ℚ), (-1 : ℚ)), (-1, 1), (1, -1), (1, 1)]).filterMap fun ij =>
    let seed : Point := ⟨cx + x * ij.1, cy + y * ij.2, none⟩
    if (sampleP F seed).isSome then some seed else none

/-- seedRows: the inner `while y < size.y/2` loop of seed pre-generation
(source lines 184-197), with fuel for the while. -/
def seedRows (F : ℚ → ℚ → Option Flow) (cx cy x : ℚ) (sy2 ssy : ℚ) :
    ℕ → ℚ → List Point
  | 0, _ => []
  | fuel + 1, yv =>
    if yv < sy2 then cornerSeeds F cx cy x yv ++ seedRows F cx cy x sy2 ssy fuel (yv + ssy)
    else []

/-- seedCols: the outer `while x < size.x/2` loop of seed pre-generation
(source lines 182-198), with fuel for the while (the same fuel bounds the
inner loop). -/
def seedCols (F : ℚ → ℚ → Option Flow) (cx cy : ℚ) (sx2 sy2 ssx ssy yStart : ℚ) :
    ℕ → ℚ → List Point
  | 0, _ => []
  | fuel + 1, xv =>
    if xv < sx2 then
      seedRows F cx cy xv sy2 ssy fuel yStart ++
        seedCols F cx cy sx2 sy2 ssx ssy yStart fuel (xv + ssx)
    else []

/-- harvestK: one iteration of the `for k in range(2)` loop (source lines
229-239): place a candidate seed at dSepEffective perpendicular to the flow
(course `dir + 1.57079633 + k*math.pi`), and if it is good, grow a new
streamline from it and accept it when it has more than 2 points. -/
def harvestK (ctx : Ctx) (level : ℤ) (lf : ℕ) (dSepEff : ℚ) (fuel : ℕ)
    (pt : Point) (dir : ℚ) (st : St) (k : ℕ) : St :=
  let newSeed := mkPt (ctx.geom.pos (pt.x, pt.y) dSepEff
    (dir + 1.57079633 + (k : ℚ) * mathPiQ))
  if isPointGood ctx lf st.grid newSeed dSepEff none then
    let newSl := Streamline.init newSeed level
    let r := extend ctx level lf fuel st.grid newSl
    let st2 : St := ⟨st.streamlines, r.1⟩
    if r.2.1.points.length > 2 then addStreamline ctx st2 r.2.1 else st2
  else st

/-- whileSli: the `while sli < len(self.streamlines)` loop (source lines
220-239) that walks the streamline list (which may grow as it is walked)
and probes every `iSteps*levelFactor`-th point of each for perpendicular
candidate seeds.  The flow direction at a probed point is read from the
attached sample; in Python a missing sample would raise, here the total
lookup defaults (claim C9's theorem shows every streamline point has a
sample). -/
def whileSli (ctx : Ctx) (level : ℤ) (lf : ℕ) (dSepEff : ℚ) (extFuel : ℕ) :
    ℕ → ℕ → St → St
  | 0, _, st => st
  | fuel + 1, sli, st =>
    if sli < st.streamlines.length then
      let sl := st.streamlines.getD sli junkSl
      let st2 := (stepRange sl.points.length (ctx.iSteps * lf)).foldl
        (fun acc pn =>
          let pt := sl.points.getD pn junkP
          let dir := ((sampleP ctx.F pt).getD junkFlow).direction
          let acc1 := harvestK ctx level lf dSepEff extFuel pt dir acc 0
          harvestK ctx level lf dSepEff extFuel pt dir acc1 1) st
      whileSli ctx level lf dSepEff extFuel fuel (sli + 1) st2
    else st

/-- SeedLoopSt: the state of the per-level seed loop: driver state, the
seeds kept for the next level, and `slStart`. -/
structure SeedLoopSt where
  st : St
  kept : List Point
  slStart : ℕ

/-- seedStep: the body of `for seed in seedCache` (source lines 218-251):
harvest perpendicular seeds from streamlines `[slStart, ...)`, update
slStart, then try the seed itself — accept the grown streamline when it has
more than 2 points, otherwise keep the seed; an immediately-bad seed is kept
only if it is still good at the unscaled dSep. -/
def seedStep (ctx : Ctx) (level : ℤ) (lf : ℕ) (dSepEff : ℚ) (fuel : ℕ)
    (acc : SeedLoopSt) (seed : Point) : SeedLoopSt :=
  let st1 := whileSli ctx level lf dSepEff fuel fuel acc.slStart acc.st
  let slStart2 := st1.streamlines.length
  if isPointGood ctx lf st1.grid seed dSepEff none then
    let newSl := Streamline.init seed level
    let r := extend ctx level lf fuel st1.grid newSl
    let st2 : St := ⟨st1.streamlines, r.1⟩
    if r.2.1.points.length > 2 then
      ⟨addStreamline ctx st2 r.2.1, acc.kept, slStart2⟩
    else ⟨st2, acc.kept ++ [seed], slStart2⟩
  else
    if isPointGood ctx lf st1.grid seed ctx.dSep none then
      ⟨st1, acc.kept ++ [seed], slStart2⟩
    else ⟨st1, acc.kept, slStart2⟩

/-- levelPass: the body of `for level in range(self.minLevel, 1)` (source
lines 203-252): set levelFactor = 2^(-level) and dSepEffective, extend every
already-accepted streamline, then run the seed loop and keep the surviving
seeds.  Levels are always ≤ 0 here (`int(2**(-level))` would truncate to 0
for a positive level, which `range(minLevel, 1)` never produces). -/
def levelPass (ctx : Ctx) (fuel : ℕ) (acc : St × List Point) (level : ℤ) :
    St × List Point :=
  let lf : ℕ := 2 ^ (-level).toNat
  let dSepEff := ctx.dSep * (lf : ℚ)
  let stExt := (List.range acc.1.streamlines.length).foldl
    (fun (s : St) i =>
      let sl := s.streamlines.getD i junkSl
      let r := extend ctx level lf fuel s.grid sl
      ⟨s.streamlines.set i r.2.1, r.1⟩) acc.1
  let res := acc.2.foldl (seedStep ctx level lf dSepEff fuel) ⟨stExt, [], 0⟩
  (res.st, res.kept)

/-- log2fuel: ⌊log₂ n⌋ by repeated halving with explicit fuel (kernel-
reducible; fuel n suffices since n halves each iteration). -/
def log2fuel : ℕ → ℕ → ℕ
  | 0, _ => 0
  | f + 1, n => if 2 ≤ n then log2fuel f (n / 2) + 1 else 0

/-- floorLog2 q = ⌊log₂ q⌋ for q > 0: the value of the source's
`math.floor(math.log(dSepMax, 2))` (the source computes it in floating
point; the exact integer value is used here). -/
def floorLog2 (q : ℚ) : ℤ :=
  if 1 ≤ q then (log2fuel ⌊q⌋.toNat ⌊q⌋.toNat : ℤ) else
    let m := ⌈q⁻¹⌉.toNat
    if 2 ≤ m then -((log2fuel (m - 1) (m - 1) : ℤ) + 1) else 0

/-- getDensity: `FlowField.getDensity` (source lines 620-637): geodesic
distance between two adjacent grid cells at the highest absolute latitude of
the field bounds. -/
def getDensity (geom : Geom) (fld : FieldI) : ℚ :=
  let bminY := min fld.minPoint.2 fld.maxPoint.2
  let bmaxY := max fld.minPoint.2 fld.maxPoint.2
  let maxLat := max |bminY| |bmaxY|
  geom.dist (0, maxLat - fld.dy) (fld.dx, maxLat)

/-- GenResult: the dictionary `generate` returns (dSep, streamlines,
iSteps). -/
structure GenResult where
  dSep : ℚ
  streamlines : List Streamline
  iSteps : ℕ

/-- generateFull: `JobardLefer.generate` (source lines 100-257), returning
the result dictionary together with the final driver state (so the final
occupancy grid is observable).  The min level is `-floor(log2 dSepMax)`; the
source computes it with float `math.log` (which raises for dSepMax ≤ 0 where
`Int.log` returns 0 — the claims below never exercise that case). -/
def generateFull (geom : Geom) (fld : FieldI) (par : Params) (fuel : ℕ) :
    GenResult × St :=
  let bmin : ℚ × ℚ := (min fld.minPoint.1 fld.maxPoint.1, min fld.minPoint.2 fld.maxPoint.2)
  let bmax : ℚ × ℚ := (max fld.minPoint.1 fld.maxPoint.1, max fld.minPoint.2 fld.maxPoint.2)
  let density := getDensity geom fld
  let dSep := density * par.separationFactor
  let dTest := dSep * par.testFactor
  let minLat : ℚ := if bmin.2 < 0 ∧ 0 < bmax.2 then 0 else min |bmin.2| |bmax.2|
  let p0 : ℚ × ℚ := (0, minLat)
  let pdx := geom.pos p0 dSep 1.5708
  let pdy := geom.pos p0 dSep 0
  let spacing : ℚ × ℚ := (pdx.1 - p0.1, pdy.2 - p0.2)
  let size : ℚ × ℚ := (bmax.1 - bmin.1, bmax.2 - bmin.2)
  let ctx : Ctx := ⟨geom, fld.sample, bmin, spacing, dSep, dTest, par.iSteps, par.minMag⟩
  let dSepMax := (min (size.1 / spacing.1) (size.2 / spacing.2)) / par.dSepMaxFactor
  let minLevel : ℤ := -(floorLog2 dSepMax)
  let seedSpacing : ℚ × ℚ :=
    (max (spacing.1 * 2) (size.1 / 250), max (spacing.2 * 2) (size.2 / 250))
  let center : ℚ × ℚ := (bmin.1 + size.1 / 2, bmin.2 + size.2 / 2)
  let seedCache := seedCols fld.sample center.1 center.2 (size.1 / 2) (size.2 / 2)
    seedSpacing.1 seedSpacing.2 (seedSpacing.2 / 2) fuel (seedSpacing.1 / 2)
  let st0 : St := ⟨[], []⟩
  let fin := (intRange minLevel 1).foldl (levelPass ctx fuel) (st0, seedCache)
  (⟨dSep, fin.1.streamlines, par.iSteps⟩, fin.1)

/-- generate: the result dictionary of `JobardLefer.generate`. -/
def generate (geom : Geom) (fld : FieldI) (par : Params) (fuel : ℕ) : GenResult :=
  (generateFull geom fld par fuel).1

/-- SampleCtx: the parts of `FlowField` that `getFlow`/`getFlowAtIndex`
read: the sample array (as a total function — the range check below is what
keeps real accesses inside the allocated block), the point counts, the
corner points and spacings, plus oracles for `math.radians` and
`interpolate` (their real definitions live in namespace `Core`). -/
structure SampleCtx where
  data : ℤ → ℤ → ℚ × ℚ
  numPointsLongitudinal : ℤ
  numPointsLatitudinal : ℤ
  toRad : ℚ → ℚ
  minPoint : ℚ × ℚ
  maxPoint : ℚ × ℚ
  dx : ℚ
  dy : ℚ
  interp : Option Flow → Option Flow → ℚ → Option Flow

/-- getFlowAtIndex: `FlowField.getFlowAtIndex` (source lines 605-615): None
for any index outside `[0, numPointsLongitudinal) x [0,
numPointsLatitudinal)`; otherwise read `data[y, x]` and build a Flow when
speed ≥ 0 (negative speed is "no data"). -/
def getFlowAtIndex (c : SampleCtx) (x y : ℤ) : Option Flow :=
  if 0 ≤ x ∧ x < c.numPointsLongitudinal ∧ 0 ≤ y ∧ y < c.numPointsLatitudinal then
    let speed := (c.data y x).1
    let direction := (c.data y x).2
    if 0 ≤ speed then some ⟨speed, c.toRad direction⟩ else none
  else none

/-- getIndex: `FlowField.getIndex` (source lines 617-618). -/
def getIndex (c : SampleCtx) (p : ℚ × ℚ) : ℚ × ℚ :=
  ((p.1 - c.minPoint.1) / c.dx, (p.2 - c.minPoint.2) / c.dy)

/-- boundsContains: `Bounds.contains` applied to the field bounds that
`FlowField.__init__` builds from the two corner points (so min/max are the
componentwise extrema of the corners). -/
def boundsContains (c : SampleCtx) (p : ℚ × ℚ) : Bool :=
  let mnx := min c.minPoint.1 c.maxPoint.1
  let mny := min c.minPoint.2 c.maxPoint.2
  let mxx := max c.minPoint.1 c.maxPoint.1
  let mxy := max c.minPoint.2 c.maxPoint.2
  decide (mnx ≤ p.1 ∧ p.1 ≤ mxx ∧ mny ≤ p.2 ∧ p.2 ≤ mxy)

/-- getFlow: `FlowField.getFlow` (source lines 573-603): None outside the
bounds; otherwise bilinear interpolation of the four surrounding samples
(floor/ceil of the fractional index), first along y then along x.  The
source's `if index is None` guard is dead (`getIndex` always returns a
pair) and is not modelled. -/
def getFlow (c : SampleCtx) (p : ℚ × ℚ) : Option Flow :=
  if boundsContains c p then
    let index := getIndex c p
    let x1 : ℤ := ⌊index.1⌋
    let x2 : ℤ := ⌈index.1⌉
    let y1 : ℤ := ⌊index.2⌋
    let y2 : ℤ := ⌈index.2⌉
    let px := index.1 - (x1 : ℚ)
    let py := index.2 - (y1 : ℚ)
    let f11 := getFlowAtIndex c x1 y1
    let f12 := getFlowAtIndex c x1 y2
    let f21 := getFlowAtIndex c x2 y1
    let f22 := getFlowAtIndex c x2 y2
    c.interp (c.interp f11 f12 py) (c.interp f21 f22 py) px
  else none

/-- bboxOf: the axis-aligned bounding box of a list of points (the box the
spec says a streamline's Bounds equals), as the fold of `Bounds.add` from
the empty box. -/
def bboxOf (ps : List Point) : Bounds :=
  ps.foldl (fun b p => b.add p) ⟨none⟩

/-- buildSl: a streamline built from a seed by an arbitrary sequence of
`addPoint (point, direction)` calls — every streamline the driver
manipulates arises this way (`Streamline.__init__` followed by
`addPoint` calls from `step`'s commit loop). -/
def buildSl (seed : Point) (level : ℤ) (ops : List (Point × ℤ)) : Streamline :=
  ops.foldl (fun sl op => sl.addPoint op.1 op.2) (Streamline.init seed level)

/-- cellEntriesOf: the points a single grid cell stores under streamline
index k. -/
def cellEntriesOf (es : List Entry) (k : ℕ) : List Point :=
  es.filterMap fun e => if e.streamIndex = k then some e.point else none

/-- rowEntriesOf: the points one grid row stores under streamline index k. -/
def rowEntriesOf (row : Row) (k : ℕ) : List Point :=
  row.foldr (fun c acc => cellEntriesOf c.2 k ++ acc) []

/-- entriesOf: the list of points stored in the occupancy grid under the
streamline index k (flattening the nested dicts; only membership is used). -/
def entriesOf (g : Grid) (k : ℕ) : List Point :=
  g.foldr (fun r acc => rowEntriesOf r.2 k ++ acc) []

/-- tagLevel: the level tagging `ip.level = self.level` performed on each
committed candidate in `step`'s commit loop. -/
def tagLevel (level : ℤ) (p : Point) : Point := { p with level := some level }

/-- gridIsSubsample: the content of claim C2: for every accepted streamline
(position k in the list), the set of its points stored in the occupancy
grid is exactly the points at every iSteps-th index along the streamline
(stated charitably for an arbitrary fixed phase r of the subsampling). -/
def gridIsSubsample (iSteps : ℕ) (st : St) : Prop :=
  ∀ k, k < st.streamlines.length →
    ∃ r, ∀ p, p ∈ entriesOf st.grid k ↔
      ∃ i, i < (st.streamlines.getD k junkSl).points.length ∧ i % iSteps = r ∧
        (st.streamlines.getD k junkSl).points.getD i junkP = p

/-- scannedOk: the Prop content of `isPointGood`'s scan: every entry of the
occupancy grid that lies in the scanned window around p and belongs to a
streamline other than `owner` is at distance at least sep from p. -/
def scannedOk (ctx : Ctx) (lf : ℕ) (grid : Grid) (p : Point) (sep : ℚ)
    (owner : Option ℕ) : Prop :=
  ∀ i ∈ intRange ((getPointsGridIndex ctx p).2 - lf) ((getPointsGridIndex ctx p).2 + lf + 1),
    ∀ row, gridFind grid i = some row →
    ∀ j ∈ intRange ((getPointsGridIndex ctx p).1 - ⌈(lf : ℚ) * widthFactor ctx i⌉)
        ((getPointsGridIndex ctx p).1 + ⌈(lf : ℚ) * widthFactor ctx i⌉ + 1),
      ∀ es, rowFind row j = some es →
        ∀ gp ∈ es, some gp.streamIndex ≠ owner →
          sep ≤ ctx.geom.dist (gp.point.x, gp.point.y) (p.x, p.y)

/-- chainPt: the predecessor chain of a transport result: element i-1 of the
returned list, or the start point for i = 0 (used to state that each
returned point arises from the previous one by one Heun step). -/
def chainPt (startPoint : Point) (r : List Point) (i : ℕ) : Point :=
  match i with
  | 0 => startPoint
  | n + 1 => r.getD n junkP

/-- smallParams: driver parameters with iSteps = 2 (the spec lists the
constants as overridable; a small iSteps keeps the concrete runs below
small while exercising the same control flow). -/
def smallParams : Params := ⟨3/2, 1/2, 2, 15/4, 1/10000⟩

/-- csRun1: the x-component of the course vectors of the run-1 geometry
oracle: courses are symbolic tags (100 = east, 200 = south, 300 = the
descent diagonal, 400 = the stop direction); 1.5708 and 0 are the courses
the driver itself uses for the cell spacing, and unknown courses (the
perpendicular-harvest ones) point far outside the field. -/
def csRun1 (c : ℚ) : ℚ :=
  if c = 1.5708 then 1 else if c = 0 then 0 else if c = 100 then 1
  else if c = 200 then 0 else if c = 300 then 1 else if c = 400 then 1 else 100

/-- snRun1: the y-component of the course vectors of the run-1 geometry. -/
def snRun1 (c : ℚ) : ℚ :=
  if c = 1.5708 then 0 else if c = 0 then 1 else if c = 100 then 0
  else if c = 200 then -1 else if c = 300 then -1/2 else if c = 400 then 1 else 100

/-- geomRun1: a planar instance of the geodesic oracles: `pos` translates by
distance times the course vector, `dist` is the Chebyshev distance (a true
metric).  Near the equator the real geodesic primitives behave like such a
flat geometry; the driver's control flow is identical for any instance. -/
def geomRun1 : Geom :=
  { pos := fun p d c => (p.1 + d * csRun1 c, p.2 + d * snRun1 c)
    dist := fun p q => max |p.1 - q.1| |p.2 - q.2| }

/-- fieldFun1: the flow sampler of run 1: an eastward corridor along y = 4
(streamline A) and a descent path starting at (4, 12) that approaches the
corridor down to vertical distance 1 at (6, 5) (streamline B). -/
def fieldFun1 : ℚ → ℚ → Option Flow := fun x y =>
  if y = 4 ∧ 0 ≤ x ∧ x ≤ 16 then some ⟨1, 100⟩
  else if x = 4 ∧ y = 6 then some ⟨1, 300⟩
  else if x = 5 ∧ y = 11/2 then some ⟨1, 300⟩
  else if x = 6 ∧ y = 5 then some ⟨1, 400⟩
  else if x = 4 ∧ 6 ≤ y ∧ y ≤ 12 then some ⟨1, 200⟩
  else none

/-- fieldRun1: field interface for run 1; dx = 8/3 and dy = 1 make
getDensity = 8/3, hence dSep = 4 and dTest = 2; the 16x16 bounds give
dSepMax = 16/15, hence minLevel = 0 (a single level). -/
def fieldRun1 : FieldI :=
  { sample := fieldFun1, minPoint := (0, 0), maxPoint := (16, 16), dx := 8/3, dy := 1 }

/-- run1: the driver run used by claim C1: it accepts two streamlines, A
with 9 points along y = 4 (x = 0..16, grid subsample x = 0,4,8,12,16) and B
with 5 points descending to (6, 5); fuel 20 exceeds every loop bound of the
run. -/
def run1 : GenResult × St := generateFull geomRun1 fieldRun1 smallParams 20

/-- csRun2: course vectors of the run-2 geometry (east corridor only). -/
def csRun2 (c : ℚ) : ℚ :=
  if c = 1.5708 then 1 else if c = 0 then 0 else if c = 100 then 1 else 100

/-- snRun2: y-components of the run-2 course vectors. -/
def snRun2 (c : ℚ) : ℚ :=
  if c = 1.5708 then 0 else if c = 0 then 1 else if c = 100 then 0 else 100

/-- geomRun2: planar geometry oracle for run 2 (same shape as run 1). -/
def geomRun2 : Geom :=
  { pos := fun p d c => (p.1 + d * csRun2 c, p.2 + d * snRun2 c)
    dist := fun p q => max |p.1 - q.1| |p.2 - q.2| }

/-- fieldFun2: one eastward corridor along y = 12 for 4 ≤ x ≤ 24. -/
def fieldFun2 : ℚ → ℚ → Option Flow := fun x y =>
  if y = 12 ∧ 4 ≤ x ∧ x ≤ 24 then some ⟨1, 100⟩ else none

/-- fieldRun2: 32x32 bounds give dSepMax = 32/15, hence minLevel = -1: the
run has two levels, so the streamline accepted at level -1 is extended again
at level 0 while already in the occupancy grid. -/
def fieldRun2 : FieldI :=
  { sample := fieldFun2, minPoint := (0, 0), maxPoint := (32, 32), dx := 8/3, dy := 1 }

/-- run2: the driver run used by claim C2: one streamline accepted at level
-1 with 9 points (grid subsample every 2nd point), then extended at level 0
by two more points (22,12) and (24,12), both of which are inserted into the
occupancy grid. -/
def run2 : GenResult × St := generateFull geomRun2 fieldRun2 smallParams 20

/-- fieldFunW: an everywhere-defined northward unit flow, used to exercise
theorems with satisfiable hypotheses on concrete inputs. -/
def fieldFunW : ℚ → ℚ → Option Flow := fun _ _ => some ⟨1, 0⟩

/-- ctxW: a small concrete driver context over `geomRun1` and `fieldFunW`
(dSep 4, dTest 2, iSteps 2). -/
def ctxW : Ctx := ⟨geomRun1, fieldFunW, (0, 0), (4, 4), 4, 2, 2, 1/10000⟩

/-- ctxWnone: the same context over a field with no samples at all (every
step fails immediately on it). -/
def ctxWnone : Ctx := ⟨geomRun1, (fun _ _ => none), (0, 0), (4, 4), 4, 2, 2, 1/10000⟩

/-- slW: a one-point streamline seeded at the origin. -/
def slW : Streamline := Streamline.init ⟨0, 0, none⟩ 0

/-- slWacc: the same streamline already accepted under index 0. -/
def slWacc : Streamline := { slW with index := some 0 }

/-- slW3: a three-point streamline built by two forward addPoint calls. -/
def slW3 : Streamline := buildSl ⟨0, 0, none⟩ 0 [(⟨1, 0, none⟩, 1), (⟨2, 0, none⟩, 1)]

/-- sampleCtxW: a small concrete sampling context: a 2x2 all-ones field on
the unit square, with identity radians oracle and first-projection
interpolation oracle. -/
def sampleCtxW : SampleCtx :=
  { data := fun _ _ => (1, 0), numPointsLongitudinal := 2, numPointsLatitudinal := 2,
    toRad := fun q => q, minPoint := (0, 0), maxPoint := (1, 1), dx := 1, dy := 1,
    interp := fun a _ _ => a }

/-- slSampled: every point of the streamline has a flow sample (the property
claim C9 states of the output streamlines). -/
def slSampled (F : ℚ → ℚ → Option Flow) (sl : Streamline) : Prop :=
  ∀ p ∈ sl.points, (sampleP F p).isSome = true

/-- stSampled: every streamline of the driver state is fully sampled. -/
def stSampled (F : ℚ → ℚ → Option Flow) (st : St) : Prop :=
  ∀ sl ∈ st.streamlines, slSampled F sl

end JL

namespace Core

/-- badMetadata: metadata inconsistent in every way the spec lists: negative
spacings, inverted bounds (north < south, east < west), and non-positive
point counts. -/
def badMetadata : Metadata :=
  { gridSpacingLongitudinal := -1, gridSpacingLatitudinal := -1,
    northBoundLatitude := -10, southBoundLatitude := 10,
    eastBoundLongitude := -10, westBoundLongitude := 10,
    numPointsLongitudinal := 0, numPointsLatitudinal := -5 }

end Core

/-
Theorems.  Helper lemmas come first; each claim Ci of the specification is
settled by the theorem(s) named claimI_... below.
-/

namespace Core

/-- atan2 of (0, 1) is 0 (the argument of the complex number 1). -/
theorem atan2_zero_one : atan2 0 1 = 0 := by
  unfold atan2
  have h : Complex.mk 1 0 = 1 := Complex.ext rfl rfl
  rw [h, Complex.arg_one]

end Core

/-- Claim C7 counterexample: constructing a FlowField from thoroughly
inconsistent metadata (zero and negative point counts, negative spacings,
inverted bounds) does NOT fail: the constructor returns a field object.
The constructor body (source lines 485-511) is straight-line code with no
validation and no raise. -/
theorem claim7_counterexample : (Core.FlowField.init Core.badMetadata).isOk = true := rfl

/-- Claim C7 amended: FlowField construction never signals an error: for
every metadata the constructor returns (ok) the field whose spacings and
corner points are the degree-to-radian conversions of the metadata and
whose bounds are built from the two corners; no validation is performed. -/
theorem claim7_theorem : ∀ m : Core.Metadata,
    Core.FlowField.init m = Except.ok
      { metadata := m
        dx := Core.mathRadians m.gridSpacingLongitudinal
        dy := Core.mathRadians m.gridSpacingLatitudinal
        minPoint := (Core.Point.mk m.westBoundLongitude m.southBoundLatitude).radians
        maxPoint := (Core.Point.mk m.eastBoundLongitude m.northBoundLatitude).radians
        bounds := ((Core.Bounds.mk none).add
            (Core.Point.mk m.westBoundLongitude m.southBoundLatitude).radians).add
            (Core.Point.mk m.eastBoundLongitude m.northBoundLatitude).radians } :=
  fun _ => rfl

/-- interpolate of two non-null flows at weight 0 evaluates to the
re-polarized first operand. -/
theorem interpolate_at_zero (a b : Core.Flow) :
    Core.interpolate (some a) (some b) 0 =
      some ⟨Real.sqrt ((a.magnitude * Real.sin a.direction) * (a.magnitude * Real.sin a.direction)
              + (a.magnitude * Real.cos a.direction) * (a.magnitude * Real.cos a.direction)),
            Core.atan2 (a.magnitude * Real.sin a.direction) (a.magnitude * Real.cos a.direction)⟩ := by
  have e1 : Real.sin a.direction * a.magnitude * (1 - 0) + Real.sin b.direction * b.magnitude * 0
      = a.magnitude * Real.sin a.direction := by ring
  have e2 : Real.cos a.direction * a.magnitude * (1 - 0) + Real.cos b.direction * b.magnitude * 0
      = a.magnitude * Real.cos a.direction := by ring
  simp only [Core.interpolate]
  rw [e1, e2]

/-- interpolate of two non-null flows at weight 1 evaluates to the
re-polarized second operand. -/
theorem interpolate_at_one (a b : Core.Flow) :
    Core.interpolate (some a) (some b) 1 =
      some ⟨Real.sqrt ((b.magnitude * Real.sin b.direction) * (b.magnitude * Real.sin b.direction)
              + (b.magnitude * Real.cos b.direction) * (b.magnitude * Real.cos b.direction)),
            Core.atan2 (b.magnitude * Real.sin b.direction) (b.magnitude * Real.cos b.direction)⟩ := by
  have e1 : Real.sin a.direction * a.magnitude * (1 - 1) + Real.sin b.direction * b.magnitude * 1
      = b.magnitude * Real.sin b.direction := by ring
  have e2 : Real.cos a.direction * a.magnitude * (1 - 1) + Real.cos b.direction * b.magnitude * 1
      = b.magnitude * Real.cos b.direction := by ring
  simp only [Core.interpolate]
  rw [e1, e2]

/-- re-polarizing (m sin d, m cos d) recovers the magnitude m when m ≥ 0. -/
theorem repolarize_magnitude (m d : ℝ) (hm : 0 ≤ m) :
    Real.sqrt ((m * Real.sin d) * (m * Real.sin d) + (m * Real.cos d) * (m * Real.cos d)) = m := by
  have h : (m * Real.sin d) * (m * Real.sin d) + (m * Real.cos d) * (m * Real.cos d) = m ^ 2 := by
    have hs := Real.sin_sq_add_cos_sq d
    nlinarith [hs]
  rw [h]
  exact Real.sqrt_sq hm

/-- re-polarizing (m sin d, m cos d) recovers the direction d when m > 0 and
d lies in atan2's principal range (-π, π]. -/
theorem repolarize_direction (m d : ℝ) (hm : 0 < m) (hd : d ∈ Set.Ioc (-Real.pi) Real.pi) :
    Core.atan2 (m * Real.sin d) (m * Real.cos d) = d := by
  unfold Core.atan2
  have h : Complex.mk (m * Real.cos d) (m * Real.sin d) =
      (m : ℂ) * Complex.mk (Real.cos d) (Real.sin d) := by
    apply Complex.ext <;>
      simp [Complex.mul_re, Complex.mul_im, Complex.ofReal_re, Complex.ofReal_im]
  rw [h, Complex.arg_real_mul _ hm, Complex.mk_eq_add_mul_I, Complex.ofReal_cos,
    Complex.ofReal_sin]
  exact Complex.arg_cos_add_sin_mul_I hd

/-- Claim C5 counterexample: `interpolate(a, b, 0) = a` fails when a's
direction lies outside atan2's principal range (-π, π]: for a = Flow(1, 2π)
the blend re-polarizes through atan2 and returns direction 0, not 2π
(directions from S-111 data are radians of degree values in [0, 360), so
values above π occur).  Hence interpolate(a, b, 0) and a differ in their
direction components while the claim asserts equal magnitude AND direction. -/
theorem claim5_counterexample :
    Core.interpolate (some ⟨1, 2 * Real.pi⟩) (some ⟨1, 0⟩) 0 ≠ some ⟨1, 2 * Real.pi⟩ := by
  intro hEq
  rw [interpolate_at_zero ⟨1, 2 * Real.pi⟩ ⟨1, 0⟩] at hEq
  simp only [Option.some.injEq, Core.Flow.mk.injEq] at hEq
  obtain ⟨hmag, hdir⟩ := hEq
  rw [show (1 : ℝ) * Real.sin (2 * Real.pi) = 0 by rw [Real.sin_two_pi]; ring,
      show (1 : ℝ) * Real.cos (2 * Real.pi) = 1 by rw [Real.cos_two_pi]; ring,
      Core.atan2_zero_one] at hdir
  exact absurd hdir (ne_of_lt Real.two_pi_pos)

/-- Claim C5 amended: for non-null Flows, interpolate(a, b, 0) = a and
interpolate(a, b, 1) = b hold under the conditions the re-polarization
needs: the recovered operand must have positive magnitude and direction in
atan2's principal range (-π, π] (otherwise only the represented vector, not
the (magnitude, direction) pair, is preserved); interpolate(null, null, p) =
null holds unconditionally. -/
theorem claim5_theorem :
    (∀ a b : Core.Flow, 0 < a.magnitude → a.direction ∈ Set.Ioc (-Real.pi) Real.pi →
      Core.interpolate (some a) (some b) 0 = some a) ∧
    (∀ a b : Core.Flow, 0 < b.magnitude → b.direction ∈ Set.Ioc (-Real.pi) Real.pi →
      Core.interpolate (some a) (some b) 1 = some b) ∧
    (∀ p : ℝ, Core.interpolate none none p = none) := by
  refine ⟨fun a b hm hd => ?_, fun a b hm hd => ?_, fun p => rfl⟩
  · rw [interpolate_at_zero a b, repolarize_magnitude _ _ hm.le,
      repolarize_direction _ _ hm hd]
  · rw [interpolate_at_one a b, repolarize_magnitude _ _ hm.le,
      repolarize_direction _ _ hm hd]

/-- Claim C5 witness: the amended endpoint identities evaluated at the
concrete flows a = Flow(1, 0), b = Flow(2, 1). -/
theorem claim5_witness :
    Core.interpolate (some ⟨1, 0⟩) (some ⟨2, 1⟩) 0 = some ⟨1, 0⟩ ∧
    Core.interpolate (some ⟨1, 0⟩) (some ⟨2, 1⟩) 1 = some ⟨2, 1⟩ ∧
    Core.interpolate none none (37 / 100) = none := by
  refine ⟨claim5_theorem.1 ⟨1, 0⟩ ⟨2, 1⟩ (by norm_num)
      ⟨neg_lt_zero.mpr Real.pi_pos, Real.pi_pos.le⟩,
    claim5_theorem.2.1 ⟨1, 0⟩ ⟨2, 1⟩ (by norm_num) ⟨?_, ?_⟩,
    claim5_theorem.2.2 (37 / 100)⟩
  · have := Real.pi_pos
    show -Real.pi < 1
    linarith
  · have := Real.pi_gt_three
    show (1 : ℝ) ≤ Real.pi
    linarith

/-- positionFromDistanceCourse from a point on the equator: the longitude of
the result is atan2(sin(centralAngle)·sin(course), cos(centralAngle)). -/
theorem posX_equator (d c : ℝ) :
    (Core.positionFromDistanceCourse ⟨0, 0⟩ d c).x =
      Core.atan2 (Real.sin (d / Core.EARTH_RADIUS) * Real.sin c)
        (Real.cos (d / Core.EARTH_RADIUS)) := by
  unfold Core.positionFromDistanceCourse
  simp [Real.sin_zero, Real.cos_zero]

/-- sin of the source's course literal 1.5708 is strictly below 1 (1.5708 is
close to but not equal to π/2). -/
theorem sin_const_lt_one : Real.sin 1.5708 < 1 := by
  have h := Real.cos_pi_div_two_sub 1.5708
  rw [← h]
  refine lt_of_le_of_ne (Real.cos_le_one _) ?_
  intro hc
  obtain ⟨n, hn⟩ := (Real.cos_eq_one_iff _).mp hc
  have hpi1 := Real.pi_gt_d4
  have hpi2 := Real.pi_lt_d4
  have hnum1 : (3.1415 : ℝ) < Real.pi := by exact_mod_cast hpi1
  have hnum2 : Real.pi < (3.1416 : ℝ) := by exact_mod_cast hpi2
  rcases lt_trichotomy n 0 with h0 | h0 | h0
  · have h0' : n ≤ -1 := by omega
    have hn1 : (n : ℝ) ≤ -1 := by exact_mod_cast h0'
    nlinarith [Real.pi_pos]
  · rw [h0] at hn
    norm_num at hn
    linarith
  · have h0' : 1 ≤ n := by omega
    have hn1 : (1 : ℝ) ≤ (n : ℝ) := by exact_mod_cast h0'
    nlinarith [Real.pi_pos]

/-- Claim C6 counterexample: at equator-straddling bounds and dSep equal to
one third of π times the earth radius, the cell spacing the driver computes
(with the literal course 1.5708 from source line 145) differs from the pair
the claim states (with course exactly π/2): the x component is
atan2(sin(π/3)·sin(1.5708), cos(π/3)) ≠ atan2(sin(π/3)·sin(π/2), cos(π/3))
because sin(1.5708) < 1 = sin(π/2). -/
theorem claim6_counterexample :
    Core.genPointsGridCellSpacing (Core.genMinLat ⟨-1, -1⟩ ⟨1, 1⟩)
        (Core.EARTH_RADIUS * (Real.pi / 3)) ≠
      Core.specPointsGridCellSpacing (Core.genMinLat ⟨-1, -1⟩ ⟨1, 1⟩)
        (Core.EARTH_RADIUS * (Real.pi / 3)) := by
  have hmin : Core.genMinLat ⟨-1, -1⟩ ⟨1, 1⟩ = 0 := by
    unfold Core.genMinLat
    rw [if_pos]
    exact ⟨by norm_num, by norm_num⟩
  rw [hmin]
  set d : ℝ := Core.EARTH_RADIUS * (Real.pi / 3) with hd
  have hdr : d / Core.EARTH_RADIUS = Real.pi / 3 := by
    rw [hd]
    unfold Core.EARTH_RADIUS
    field_simp
    ring
  intro hEq
  have hx := congrArg Core.Point.x hEq
  have e1 : (Core.genPointsGridCellSpacing 0 d).x =
      Core.atan2 (Real.sin (Real.pi / 3) * Real.sin 1.5708) (Real.cos (Real.pi / 3)) := by
    show (Core.positionFromDistanceCourse ⟨0, 0⟩ d 1.5708).x - (Core.Point.mk 0 0).x = _
    rw [posX_equator, hdr]
    show _ - (0 : ℝ) = _
    ring
  have e2 : (Core.specPointsGridCellSpacing 0 d).x =
      Core.atan2 (Real.sin (Real.pi / 3) * Real.sin (Real.pi / 2)) (Real.cos (Real.pi / 3)) := by
    show (Core.positionFromDistanceCourse ⟨0, 0⟩ d (Real.pi / 2)).x - 0 = _
    rw [posX_equator, hdr]
    ring
  rw [e1, e2] at hx
  have htan := congrArg Real.tan hx
  unfold Core.atan2 at htan
  rw [Complex.tan_arg, Complex.tan_arg] at htan
  simp only [Real.sin_pi_div_two, Real.cos_pi_div_three, Real.sin_pi_div_three] at htan
  have h3 : (0 : ℝ) < Real.sqrt 3 := Real.sqrt_pos.mpr (by norm_num)
  have hs : Real.sin 1.5708 = 1 := by
    field_simp at htan
    nlinarith [htan, h3]
  linarith [sin_const_lt_one, hs]

/-- Claim C6 amended: minLat is 0 when the field bounds straddle the equator
(strictly) and otherwise the smaller of |bounds.min.y| and |bounds.max.y|;
and pointsGridCellSpacing equals the pair
(positionFromDistanceCourse((0, minLat), dSep, 1.5708).x − 0,
positionFromDistanceCourse((0, minLat), dSep, 0).y − minLat): the course of
the x-component computation is the source's literal 1.5708, which is close
to but NOT exactly π/2. -/
theorem claim6_theorem :
    (∀ bmin bmax : Core.Point,
      (bmin.y < 0 ∧ 0 < bmax.y → Core.genMinLat bmin bmax = 0) ∧
      (¬(bmin.y < 0 ∧ 0 < bmax.y) →
        Core.genMinLat bmin bmax = min |bmin.y| |bmax.y|)) ∧
    (∀ minLat dSep : ℝ,
      Core.genPointsGridCellSpacing minLat dSep =
        ⟨(Core.positionFromDistanceCourse ⟨0, minLat⟩ dSep 1.5708).x - 0,
         (Core.positionFromDistanceCourse ⟨0, minLat⟩ dSep 0.0).y - minLat⟩) := by
  refine ⟨fun bmin bmax => ⟨fun h => ?_, fun h => ?_⟩, fun minLat dSep => rfl⟩
  · unfold Core.genMinLat
    rw [if_pos h]
  · unfold Core.genMinLat
    rw [if_neg h]

/-- Claim C6 witness: the amended init computation evaluated at concrete
bounds: straddling bounds give minLat 0, one-sided bounds give the smaller
absolute corner latitude, and the spacing formula instantiated at
(minLat, dSep) = (0, 5). -/
theorem claim6_witness :
    Core.genMinLat ⟨-2, -2⟩ ⟨3, 3⟩ = 0 ∧
    Core.genMinLat ⟨1, 1⟩ ⟨2, 2⟩ = min |(1 : ℝ)| |(2 : ℝ)| ∧
    Core.genPointsGridCellSpacing 0 5 =
      ⟨(Core.positionFromDistanceCourse ⟨0, 0⟩ 5 1.5708).x - 0,
       (Core.positionFromDistanceCourse ⟨0, 0⟩ 5 0.0).y - 0⟩ :=
  ⟨(claim6_theorem.1 ⟨-2, -2⟩ ⟨3, 3⟩).1 ⟨by norm_num, by norm_num⟩,
   (claim6_theorem.1 ⟨1, 1⟩ ⟨2, 2⟩).2
     (by intro h; exact absurd h.1 (by norm_num)),
   claim6_theorem.2 0 5⟩

/-- chainPt steps through a cons cell. -/
theorem chainPt_cons (p q : JL.Point) (r : List JL.Point) (i : ℕ) :
    JL.chainPt p (q :: r) (i + 1) = JL.chainPt q r i := by
  cases i <;> rfl

/-- transportAux produces at most fuel points, each obtained from its
predecessor by one midpoint-Heun step, and stops short of the fuel exactly
when the Heun step fails at the stopping point. -/
theorem transportAux_spec (F : ℚ → ℚ → Option JL.Flow) (geom : JL.Geom) (ss mm : ℚ) :
    ∀ (n : ℕ) (p : JL.Point),
    (JL.transportAux F geom ss mm n p).length ≤ n ∧
    (∀ i, i < (JL.transportAux F geom ss mm n p).length →
      JL.heunStep F geom ss mm (JL.chainPt p (JL.transportAux F geom ss mm n p) i) =
        some ((JL.transportAux F geom ss mm n p).getD i JL.junkP)) ∧
    ((JL.transportAux F geom ss mm n p).length < n →
      JL.heunStep F geom ss mm
        (JL.chainPt p (JL.transportAux F geom ss mm n p)
          (JL.transportAux F geom ss mm n p).length) = none) := by
  intro n
  induction n with
  | zero =>
    intro p
    refine ⟨Nat.le_refl _, fun i hi => ?_, fun h => ?_⟩
    · simp only [JL.transportAux, List.length_nil] at hi
      exact absurd hi (Nat.not_lt_zero i)
    · simp only [JL.transportAux, List.length_nil] at h
      exact absurd h (Nat.not_lt_zero 0)
  | succ n ih =>
    intro p
    rcases hF : JL.sampleP F p with _ | fl
    · have hr : JL.transportAux F geom ss mm (n + 1) p = [] := by
        simp [JL.transportAux, hF]
      rw [hr]
      refine ⟨by simp, fun i hi => absurd hi (by simp), fun h => ?_⟩
      show JL.heunStep F geom ss mm p = none
      simp [JL.heunStep, hF]
    · by_cases hmag : mm < fl.magnitude
      · rcases hFm : JL.sampleP F (JL.mkPt (geom.pos (p.x, p.y) (ss / 2) fl.direction))
          with _ | flMid
        · have hr : JL.transportAux F geom ss mm (n + 1) p = [] := by
            simp [JL.transportAux, hF, hmag, hFm]
          rw [hr]
          refine ⟨by simp, fun i hi => absurd hi (by simp), fun h => ?_⟩
          show JL.heunStep F geom ss mm p = none
          simp [JL.heunStep, hF, hmag, hFm]
        · by_cases hmid : mm < flMid.magnitude
          · have hr : JL.transportAux F geom ss mm (n + 1) p =
                JL.mkPt (geom.pos (p.x, p.y) ss flMid.direction) ::
                  JL.transportAux F geom ss mm n
                    (JL.mkPt (geom.pos (p.x, p.y) ss flMid.direction)) := by
              simp [JL.transportAux, hF, hmag, hFm, hmid]
            obtain ⟨ih1, ih2, ih3⟩ := ih (JL.mkPt (geom.pos (p.x, p.y) ss flMid.direction))
            rw [hr]
            refine ⟨by simpa using Nat.succ_le_succ ih1, fun i hi => ?_, fun h => ?_⟩
            · cases i with
              | zero =>
                show JL.heunStep F geom ss mm p =
                  some (JL.mkPt (geom.pos (p.x, p.y) ss flMid.direction))
                simp [JL.heunStep, hF, hmag, hFm, hmid]
              | succ j =>
                rw [chainPt_cons]
                have hj : j < (JL.transportAux F geom ss mm n
                    (JL.mkPt (geom.pos (p.x, p.y) ss flMid.direction))).length := by
                  simpa using Nat.lt_of_succ_lt_succ hi
                simpa using ih2 j hj
            · have h' : (JL.transportAux F geom ss mm n
                  (JL.mkPt (geom.pos (p.x, p.y) ss flMid.direction))).length < n := by
                simpa using Nat.lt_of_succ_lt_succ h
              rw [show (JL.mkPt (geom.pos (p.x, p.y) ss flMid.direction) ::
                  JL.transportAux F geom ss mm n
                    (JL.mkPt (geom.pos (p.x, p.y) ss flMid.direction))).length =
                  (JL.transportAux F geom ss mm n
                    (JL.mkPt (geom.pos (p.x, p.y) ss flMid.direction))).length + 1 from rfl,
                chainPt_cons]
              exact ih3 h'
          · have hr : JL.transportAux F geom ss mm (n + 1) p = [] := by
              simp [JL.transportAux, hF, hmag, hFm, hmid]
            rw [hr]
            refine ⟨by simp, fun i hi => absurd hi (by simp), fun h => ?_⟩
            show JL.heunStep F geom ss mm p = none
            simp [JL.heunStep, hF, hmag, hFm, hmid]
      · have hr : JL.transportAux F geom ss mm (n + 1) p = [] := by
          simp [JL.transportAux, hF, hmag]
        rw [hr]
        refine ⟨by simp, fun i hi => absurd hi (by simp), fun h => ?_⟩
        show JL.heunStep F geom ss mm p = none
        simp [JL.heunStep, hF, hmag]

/-- Claim C4: FlowField.transport returns at most `steps` points; each
returned point is obtained from its predecessor (the start point for the
first) by one midpoint-Heun advance of distance/steps metres — half a step
along the current flow's direction gives pMid, then a full step along
pMid's flow direction (`heunStep`) — and the call stops early, returning
the prefix accumulated so far (possibly empty), exactly when that advance
fails at the current point, i.e. when the current point or the midpoint
lacks a flow sample or has magnitude ≤ minimumMagnitude. -/
theorem claim4_theorem (F : ℚ → ℚ → Option JL.Flow) (geom : JL.Geom)
    (startPoint : JL.Point) (options : JL.TransportOptions) :
    (JL.transport F geom startPoint options).length ≤ options.steps ∧
    (∀ i, i < (JL.transport F geom startPoint options).length →
      JL.heunStep F geom (options.distance / (options.steps : ℚ)) options.minimumMagnitude
        (JL.chainPt startPoint (JL.transport F geom startPoint options) i) =
        some ((JL.transport F geom startPoint options).getD i JL.junkP)) ∧
    ((JL.transport F geom startPoint options).length < options.steps →
      JL.heunStep F geom (options.distance / (options.steps : ℚ)) options.minimumMagnitude
        (JL.chainPt startPoint (JL.transport F geom startPoint options)
          (JL.transport F geom startPoint options).length) = none) :=
  transportAux_spec F geom (options.distance / (options.steps : ℚ))
    options.minimumMagnitude options.steps startPoint

unseal Rat.add Rat.mul Rat.inv Rat.sub Rat.ofScientific in
/-- Claim C4 witness: the transport characterization evaluated on a
concrete call: an everywhere-northward field, start (0,0), distance 4 in 2
steps. -/
theorem claim4_witness :
    (JL.transport JL.fieldFunW JL.geomRun1 ⟨0, 0, none⟩ ⟨4, 2, 1/10000⟩).length ≤ 2 ∧
    JL.heunStep JL.fieldFunW JL.geomRun1 (4 / ((2 : ℕ) : ℚ)) (1/10000)
      (JL.chainPt ⟨0, 0, none⟩
        (JL.transport JL.fieldFunW JL.geomRun1 ⟨0, 0, none⟩ ⟨4, 2, 1/10000⟩) 0) =
      some ((JL.transport JL.fieldFunW JL.geomRun1 ⟨0, 0, none⟩ ⟨4, 2, 1/10000⟩).getD 0
        JL.junkP) := by
  obtain ⟨h1, h2, h3⟩ := claim4_theorem JL.fieldFunW JL.geomRun1 ⟨0, 0, none⟩ ⟨4, 2, 1/10000⟩
  exact ⟨h1, h2 0 (by decide)⟩

/-- Claim C8: when step(sl, direction) returns False, nothing was mutated:
the returned grid and streamline are exactly the ones passed in (hence the
point list, seed_index, bounds and the occupancy grid are unchanged):
candidates are committed only after the entire chunk has passed every
proximity test. -/
theorem claim8_theorem (ctx : JL.Ctx) (level : ℤ) (lf : ℕ) (grid : JL.Grid)
    (sl : JL.Streamline) (direction : ℤ) (g2 : JL.Grid) (sl2 : JL.Streamline)
    (h : JL.step ctx level lf grid sl direction = (false, g2, sl2)) :
    g2 = grid ∧ sl2 = sl := by
  simp only [JL.step] at h
  by_cases hs : (JL.sampleP ctx.F (if direction > 0 then sl.points.getLastD JL.junkP
      else sl.points.headD JL.junkP)).isSome
  · rw [if_pos hs] at h
    rcases hc : JL.chunkLoop ctx lf grid sl direction lf
        (if direction > 0 then sl.points.getLastD JL.junkP else sl.points.headD JL.junkP) []
      with ⟨op, steps⟩
    rw [hc] at h
    cases op with
    | some q => simp at h
    | none =>
      simp only [Prod.mk.injEq] at h
      exact ⟨h.2.1.symm, h.2.2.symm⟩
  · rw [if_neg hs] at h
    simp only [Prod.mk.injEq] at h
    exact ⟨h.2.1.symm, h.2.2.symm⟩

unseal Rat.add Rat.mul Rat.inv Rat.sub Rat.ofScientific in
/-- Claim C8 witness: a concrete failing step (a field with no samples) for
which the theorem yields that state and streamline are returned untouched. -/
theorem claim8_witness : ([] : JL.Grid) = [] ∧ JL.slW = JL.slW :=
  claim8_theorem JL.ctxWnone 0 1 [] JL.slW 1 [] JL.slW (by rfl)

/-- getFlowAtIndex only depends on in-range samples: replacing the data
array by one that agrees on `[0, numLon) x [0, numLat)` leaves every lookup
unchanged. -/
theorem getFlowAtIndex_congr (c : JL.SampleCtx) (d2 : ℤ → ℤ → ℚ × ℚ)
    (hagree : ∀ x y : ℤ, 0 ≤ x → x < c.numPointsLongitudinal → 0 ≤ y →
      y < c.numPointsLatitudinal → c.data y x = d2 y x)
    (x y : ℤ) :
    JL.getFlowAtIndex { c with data := d2 } x y = JL.getFlowAtIndex c x y := by
  unfold JL.getFlowAtIndex
  by_cases h : 0 ≤ x ∧ x < c.numPointsLongitudinal ∧ 0 ≤ y ∧ y < c.numPointsLatitudinal
  · rw [if_pos h, if_pos h]
    simp only [hagree x y h.1 h.2.1 h.2.2.1 h.2.2.2]
  · rw [if_neg h, if_neg h]

/-- Claim C10: getFlowAtIndex returns null for every out-of-range index
(regardless of the data array), and getFlow reads the sample array only at
in-range indices: two fields whose arrays agree on
`[0, numPointsLongitudinal) x [0, numPointsLatitudinal)` produce identical
getFlow results at every query point, so bilinear sampling at or beyond the
field boundary never reaches outside the allocated block. -/
theorem claim10_theorem (c : JL.SampleCtx) (d2 : ℤ → ℤ → ℚ × ℚ) :
    (∀ x y : ℤ,
      ¬(0 ≤ x ∧ x < c.numPointsLongitudinal ∧ 0 ≤ y ∧ y < c.numPointsLatitudinal) →
      JL.getFlowAtIndex c x y = none) ∧
    ((∀ x y : ℤ, 0 ≤ x → x < c.numPointsLongitudinal → 0 ≤ y →
        y < c.numPointsLatitudinal → c.data y x = d2 y x) →
      ∀ p : ℚ × ℚ, JL.getFlow { c with data := d2 } p = JL.getFlow c p) := by
  constructor
  · intro x y h
    unfold JL.getFlowAtIndex
    rw [if_neg h]
  · intro hagree p
    unfold JL.getFlow
    by_cases hb : JL.boundsContains c p = true
    · have hb2 : JL.boundsContains { c with data := d2 } p = true := hb
      rw [if_pos hb, if_pos hb2]
      simp only [JL.getIndex, getFlowAtIndex_congr c d2 hagree]
    · have hb2 : ¬(JL.boundsContains { c with data := d2 } p = true) := hb
      rw [if_neg hb, if_neg hb2]

unseal Rat.add Rat.mul Rat.inv Rat.sub Rat.ofScientific in
/-- Claim C10 witness: the out-of-range lookup at x = -3 on a concrete 2x2
field is null, and getFlow at (1/2, 1/2) is unchanged when the data array is
replaced by one agreeing in range. -/
theorem claim10_witness :
    JL.getFlowAtIndex JL.sampleCtxW (-3) 0 = none ∧
    JL.getFlow { JL.sampleCtxW with data := JL.sampleCtxW.data } (1/2, 1/2) =
      JL.getFlow JL.sampleCtxW (1/2, 1/2) :=
  ⟨(claim10_theorem JL.sampleCtxW JL.sampleCtxW.data).1 (-3) 0 (by decide),
   (claim10_theorem JL.sampleCtxW JL.sampleCtxW.data).2
     (fun x y h1 h2 h3 h4 => rfl) (1/2, 1/2)⟩

/-- Bounds.add commutes with itself: adding two points in either order
yields the same box. -/
theorem Bounds_add_comm (b : JL.Bounds) (p q : JL.Point) :
    (b.add p).add q = (b.add q).add p := by
  rcases b with ⟨mm⟩
  rcases mm with _ | ⟨mn, mx⟩
  · show JL.Bounds.mk (some ((min p.x q.x, min p.y q.y), (max p.x q.x, max p.y q.y))) =
        JL.Bounds.mk (some ((min q.x p.x, min q.y p.y), (max q.x p.x, max q.y p.y)))
    rw [min_comm p.x q.x, min_comm p.y q.y, max_comm p.x q.x, max_comm p.y q.y]
  · show JL.Bounds.mk (some ((min (min mn.1 p.x) q.x, min (min mn.2 p.y) q.y),
          (max (max mx.1 p.x) q.x, max (max mx.2 p.y) q.y))) =
        JL.Bounds.mk (some ((min (min mn.1 q.x) p.x, min (min mn.2 q.y) p.y),
          (max (max mx.1 q.x) p.x, max (max mx.2 q.y) p.y)))
    rw [min_right_comm mn.1 p.x q.x, min_right_comm mn.2 p.y q.y,
      Max.right_comm mx.1 p.x q.x, Max.right_comm mx.2 p.y q.y]

/-- bboxOf is invariant under permutation of the point list. -/
theorem bboxOf_perm {l1 l2 : List JL.Point} (h : l1.Perm l2) :
    JL.bboxOf l1 = JL.bboxOf l2 :=
  h.foldl_eq' (fun x _ y _ z => Bounds_add_comm z x y) ⟨none⟩

/-- buildSl invariant: the seed index is in range, removing the seed from
the point list leaves (a permutation of) the added points, and the bounds
are the bounding box of the added points — the seed is never added to the
bounds (`Streamline.__init__` creates them empty). -/
theorem buildSl_spec (seed : JL.Point) (level : ℤ) (ops : List (JL.Point × ℤ)) :
    (JL.buildSl seed level ops).seed_index < (JL.buildSl seed level ops).points.length ∧
    ((JL.buildSl seed level ops).points.eraseIdx
        (JL.buildSl seed level ops).seed_index).Perm (ops.map Prod.fst) ∧
    (JL.buildSl seed level ops).bounds = JL.bboxOf (ops.map Prod.fst) := by
  induction ops using List.reverseRecOn with
  | nil => exact ⟨Nat.zero_lt_one, List.Perm.refl _, rfl⟩
  | append_singleton ops op ih =>
    obtain ⟨ih1, ih2, ih3⟩ := ih
    have hb : JL.buildSl seed level (ops ++ [op]) =
        (JL.buildSl seed level ops).addPoint op.1 op.2 := by
      unfold JL.buildSl
      rw [List.foldl_append]
      rfl
    have hmap : (ops ++ [op]).map Prod.fst = ops.map Prod.fst ++ [op.1] := by
      rw [List.map_append]
      rfl
    have hbbox : JL.bboxOf (ops.map Prod.fst ++ [op.1]) =
        (JL.bboxOf (ops.map Prod.fst)).add op.1 := by
      unfold JL.bboxOf
      rw [List.foldl_append]
      rfl
    rw [hb, hmap, hbbox]
    unfold JL.Streamline.addPoint
    by_cases hdir : op.2 > 0
    · rw [if_pos hdir]
      refine ⟨?_, ?_, ?_⟩
      · show (JL.buildSl seed level ops).seed_index <
          ((JL.buildSl seed level ops).points ++ [op.1]).length
        rw [List.length_append]
        exact Nat.lt_add_right _ ih1
      · show (((JL.buildSl seed level ops).points ++ [op.1]).eraseIdx
            (JL.buildSl seed level ops).seed_index).Perm (ops.map Prod.fst ++ [op.1])
        rw [List.eraseIdx_append_of_lt_length ih1]
        exact ih2.append_right [op.1]
      · show (JL.buildSl seed level ops).bounds.add op.1 = _
        rw [ih3]
    · rw [if_neg hdir]
      refine ⟨?_, ?_, ?_⟩
      · show (JL.buildSl seed level ops).seed_index + 1 <
          (op.1 :: (JL.buildSl seed level ops).points).length
        rw [List.length_cons]
        exact Nat.succ_lt_succ ih1
      · show ((op.1 :: (JL.buildSl seed level ops).points).eraseIdx
            ((JL.buildSl seed level ops).seed_index + 1)).Perm (ops.map Prod.fst ++ [op.1])
        rw [List.eraseIdx_cons_succ]
        exact (ih2.cons op.1).trans (List.perm_append_singleton op.1 _).symm
      · show (JL.buildSl seed level ops).bounds.add op.1 = _
        rw [ih3]

unseal Rat.add Rat.mul Rat.inv Rat.sub Rat.ofScientific in
/-- Claim C3 counterexample: a streamline produced by the driver (the
second accepted streamline of run1, which grew only forward from its seed)
has Bounds strictly smaller than the bounding box of all of its points:
`Streamline.__init__` creates the bounds EMPTY and never adds the seed, so
the seed point (4, 12) — here an endpoint of the polyline — is outside the
recorded bounds (whose maximal y is 10). -/
theorem claim3_counterexample :
    (JL.run1.1.streamlines.getD 1 JL.junkSl).bounds ≠
      JL.bboxOf (JL.run1.1.streamlines.getD 1 JL.junkSl).points := by
  decide

/-- Claim C3 amended: for every streamline built as the driver builds them
(a seed plus any sequence of addPoint calls), the Bounds equal the
axis-aligned bounding box of its points EXCLUDING the seed point (the point
at seed_index): the constructor starts the bounds empty and only addPoint
grows them. -/
theorem claim3_theorem (seed : JL.Point) (level : ℤ) (ops : List (JL.Point × ℤ)) :
    (JL.buildSl seed level ops).bounds =
      JL.bboxOf ((JL.buildSl seed level ops).points.eraseIdx
        (JL.buildSl seed level ops).seed_index) := by
  obtain ⟨h1, h2, h3⟩ := buildSl_spec seed level ops
  rw [h3, bboxOf_perm h2]

/-- rowEntriesOf distributes over cons. -/
theorem rowEntriesOf_cons (c : ℤ × List JL.Entry) (rest : JL.Row) (k : ℕ) :
    JL.rowEntriesOf (c :: rest) k = JL.cellEntriesOf c.2 k ++ JL.rowEntriesOf rest k := rfl

/-- entriesOf distributes over cons. -/
theorem entriesOf_cons (r : ℤ × JL.Row) (g : JL.Grid) (k : ℕ) :
    JL.entriesOf (r :: g) k = JL.rowEntriesOf r.2 k ++ JL.entriesOf g k := rfl

/-- membership in a cell's entry list. -/
theorem mem_cellEntriesOf {q : JL.Point} {es : List JL.Entry} {k : ℕ} :
    q ∈ JL.cellEntriesOf es k ↔ ∃ e ∈ es, e.streamIndex = k ∧ e.point = q := by
  unfold JL.cellEntriesOf
  rw [List.mem_filterMap]
  constructor
  · rintro ⟨e, he, hq⟩
    by_cases hk : e.streamIndex = k
    · rw [if_pos hk] at hq
      exact ⟨e, he, hk, Option.some_inj.mp hq⟩
    · rw [if_neg hk] at hq
      cases hq
  · rintro ⟨e, he, hk, hq⟩
    exact ⟨e, he, by rw [if_pos hk, hq]⟩

/-- cellEntriesOf distributes over append. -/
theorem cellEntriesOf_append (es1 es2 : List JL.Entry) (k : ℕ) :
    JL.cellEntriesOf (es1 ++ es2) k = JL.cellEntriesOf es1 k ++ JL.cellEntriesOf es2 k := by
  unfold JL.cellEntriesOf
  rw [List.filterMap_append]

/-- inserting an entry into a row adds exactly that entry's point to the
row's entries under its owner's index. -/
theorem mem_rowEntriesOf_rowInsert (row : JL.Row) (xi : ℤ) (e : JL.Entry) (k : ℕ)
    (q : JL.Point) :
    q ∈ JL.rowEntriesOf (JL.rowInsert row xi e) k ↔
      (e.streamIndex = k ∧ e.point = q) ∨ q ∈ JL.rowEntriesOf row k := by
  induction row with
  | nil =>
    show q ∈ JL.rowEntriesOf [(xi, [e])] k ↔ _
    rw [rowEntriesOf_cons]
    simp [JL.rowEntriesOf, mem_cellEntriesOf]
  | cons c rest ih =>
    by_cases hj : c.1 = xi
    · show q ∈ JL.rowEntriesOf (if c.1 = xi then (c.1, c.2 ++ [e]) :: rest
        else c :: JL.rowInsert rest xi e) k ↔ _
      rw [if_pos hj, rowEntriesOf_cons]
      show q ∈ JL.cellEntriesOf (c.2 ++ [e]) k ++ JL.rowEntriesOf rest k ↔ _
      rw [cellEntriesOf_append, rowEntriesOf_cons]
      simp only [List.mem_append, mem_cellEntriesOf]
      simp only [List.mem_singleton]
      constructor
      · rintro ((h | ⟨e2, he2, h1, h2⟩) | h)
        · exact Or.inr (Or.inl h)
        · subst he2
          exact Or.inl ⟨h1, h2⟩
        · exact Or.inr (Or.inr h)
      · rintro (⟨h1, h2⟩ | h | h)
        · exact Or.inl (Or.inr ⟨e, rfl, h1, h2⟩)
        · exact Or.inl (Or.inl h)
        · exact Or.inr h
    · show q ∈ JL.rowEntriesOf (if c.1 = xi then (c.1, c.2 ++ [e]) :: rest
        else c :: JL.rowInsert rest xi e) k ↔ _
      rw [if_neg hj, rowEntriesOf_cons, rowEntriesOf_cons]
      simp only [List.mem_append, ih]
      tauto

/-- inserting an entry into the grid adds exactly that entry's point to the
grid's entries under its owner's index. -/
theorem mem_entriesOf_gridInsert (g : JL.Grid) (yi xi : ℤ) (e : JL.Entry) (k : ℕ)
    (q : JL.Point) :
    q ∈ JL.entriesOf (JL.gridInsert g yi xi e) k ↔
      (e.streamIndex = k ∧ e.point = q) ∨ q ∈ JL.entriesOf g k := by
  induction g with
  | nil =>
    show q ∈ JL.entriesOf [(yi, [(xi, [e])])] k ↔ _
    rw [entriesOf_cons, rowEntriesOf_cons]
    simp [JL.entriesOf, JL.rowEntriesOf, mem_cellEntriesOf]
  | cons r rest ih =>
    by_cases hi : r.1 = yi
    · show q ∈ JL.entriesOf (if r.1 = yi then (r.1, JL.rowInsert r.2 xi e) :: rest
        else r :: JL.gridInsert rest yi xi e) k ↔ _
      rw [if_pos hi, entriesOf_cons, entriesOf_cons]
      simp only [List.mem_append, mem_rowEntriesOf_rowInsert]
      tauto
    · show q ∈ JL.entriesOf (if r.1 = yi then (r.1, JL.rowInsert r.2 xi e) :: rest
        else r :: JL.gridInsert rest yi xi e) k ↔ _
      rw [if_neg hi, entriesOf_cons, entriesOf_cons]
      simp only [List.mem_append, ih]
      tauto

/-- JobardLefer.addPoint adds exactly the given point under the given
streamline index. -/
theorem mem_entriesOf_addPointGrid (ctx : JL.Ctx) (g : JL.Grid) (p : JL.Point)
    (k0 k : ℕ) (q : JL.Point) :
    q ∈ JL.entriesOf (JL.addPointGrid ctx g p k0) k ↔
      (k0 = k ∧ p = q) ∨ q ∈ JL.entriesOf g k :=
  mem_entriesOf_gridInsert g _ _ ⟨p, k0⟩ k q

/-- folding grid insertions of points f(i) for i in a list adds exactly
those points under the given owner index. -/
theorem mem_entriesOf_foldl_addPoint (ctx : JL.Ctx) (idx k : ℕ) (f : ℕ → JL.Point) :
    ∀ (L : List ℕ) (g : JL.Grid) (q : JL.Point),
    q ∈ JL.entriesOf (L.foldl (fun g2 i => JL.addPointGrid ctx g2 (f i) idx) g) k ↔
      q ∈ JL.entriesOf g k ∨ (idx = k ∧ ∃ i ∈ L, f i = q) := by
  intro L
  induction L with
  | nil =>
    intro g q
    simp
  | cons i rest ih =>
    intro g q
    rw [List.foldl_cons, ih, mem_entriesOf_addPointGrid]
    simp only [List.mem_cons]
    constructor
    · rintro ((⟨h1, h2⟩ | h) | ⟨h1, j, hj, hf⟩)
      · exact Or.inr ⟨h1, i, Or.inl rfl, h2⟩
      · exact Or.inl h
      · exact Or.inr ⟨h1, j, Or.inr hj, hf⟩
    · rintro (h | ⟨h1, j, (rfl | hj), hf⟩)
      · exact Or.inl (Or.inr h)
      · exact Or.inl (Or.inl ⟨h1, hf⟩)
      · exact Or.inr ⟨h1, j, hj, hf⟩

/-- commitSteps characterization: when the streamline is accepted (index
some k), committing a candidate list appends (or prepends, reversed) the
level-tagged candidates to the point list and adds exactly those tagged
points to the occupancy grid under index k. -/
theorem commitSteps_spec (ctx : JL.Ctx) (level : ℤ) (direction : ℤ) (k : ℕ) :
    ∀ (steps : List JL.Point) (g : JL.Grid) (sl : JL.Streamline), sl.index = some k →
      (JL.commitSteps ctx level direction steps (g, sl)).2.index = some k ∧
      (0 < direction →
        (JL.commitSteps ctx level direction steps (g, sl)).2.points =
          sl.points ++ steps.map (JL.tagLevel level)) ∧
      (¬ 0 < direction →
        (JL.commitSteps ctx level direction steps (g, sl)).2.points =
          (steps.map (JL.tagLevel level)).reverse ++ sl.points) ∧
      (∀ q, q ∈ JL.entriesOf (JL.commitSteps ctx level direction steps (g, sl)).1 k ↔
        q ∈ JL.entriesOf g k ∨ q ∈ steps.map (JL.tagLevel level)) := by
  intro steps
  induction steps with
  | nil =>
    intro g sl h
    exact ⟨h, fun _ => by simp [JL.commitSteps], fun _ => by simp [JL.commitSteps],
      fun q => by simp [JL.commitSteps]⟩
  | cons ip rest ih =>
    intro g sl h
    have hstep : JL.commitSteps ctx level direction (ip :: rest) (g, sl) =
        JL.commitSteps ctx level direction rest
          (JL.addPointGrid ctx g (JL.tagLevel level ip) k,
           sl.addPoint (JL.tagLevel level ip) direction) := by
      simp only [JL.commitSteps, List.foldl_cons, h]
      rfl
    have hidx : (sl.addPoint (JL.tagLevel level ip) direction).index = some k := by
      unfold JL.Streamline.addPoint
      by_cases hd : direction > 0
      · rw [if_pos hd]
        exact h
      · rw [if_neg hd]
        exact h
    obtain ⟨ih1, ih2, ih3, ih4⟩ := ih _ _ hidx
    rw [hstep]
    refine ⟨ih1, fun hd => ?_, fun hd => ?_, fun q => ?_⟩
    · rw [ih2 hd]
      have hpts : (sl.addPoint (JL.tagLevel level ip) direction).points =
          sl.points ++ [JL.tagLevel level ip] := by
        unfold JL.Streamline.addPoint
        rw [if_pos hd]
      rw [hpts, List.append_assoc]
      rfl
    · rw [ih3 hd]
      have hpts : (sl.addPoint (JL.tagLevel level ip) direction).points =
          JL.tagLevel level ip :: sl.points := by
        unfold JL.Streamline.addPoint
        rw [if_neg hd]
      rw [hpts, List.map_cons, List.reverse_cons, List.append_assoc]
      rfl
    · rw [ih4 q, mem_entriesOf_addPointGrid]
      simp only [List.map_cons, List.mem_cons]
      constructor
      · rintro ((⟨h1, h2⟩ | hg) | hr)
        · exact Or.inr (Or.inl h2.symm)
        · exact Or.inl hg
        · exact Or.inr (Or.inr hr)
      · rintro (hg | (hq | hr))
        · exact Or.inl (Or.inr hg)
        · exact Or.inl (Or.inl ⟨trivial, hq.symm⟩)
        · exact Or.inr hr

unseal Rat.add Rat.mul Rat.inv Rat.sub Rat.ofScientific in
/-- Claim C2 counterexample: in run2 the single accepted streamline (index
0, 11 points) ends with points (22,12) and (24,12) committed at level 0 by
`step` on the already-accepted streamline, and BOTH are inserted into the
occupancy grid (step inserts every committed point, not every iSteps-th):
the final grid holds consecutive points 9 and 10 of the streamline, so no
every-iSteps-th (iSteps = 2) subsampling — at any phase — describes the
grid contents. -/
theorem claim2_counterexample : ¬ JL.gridIsSubsample 2 JL.run2.2 := by
  intro h
  obtain ⟨r, hr⟩ := h 0 (by decide)
  have h22 : (⟨22, 12, some 0⟩ : JL.Point) ∈ JL.entriesOf JL.run2.2.grid 0 := by decide
  have h4 : (⟨4, 12, some (-1)⟩ : JL.Point) ∈ JL.entriesOf JL.run2.2.grid 0 := by decide
  obtain ⟨i, hi, him, hieq⟩ := (hr _).mp h22
  obtain ⟨j, hj, hjm, hjeq⟩ := (hr _).mp h4
  have hlen : (JL.run2.2.streamlines.getD 0 JL.junkSl).points.length = 11 := by decide
  have hi9 : i = 9 := by
    have hall : ∀ m, m < 11 →
        ((JL.run2.2.streamlines.getD 0 JL.junkSl).points.getD m JL.junkP =
          (⟨22, 12, some 0⟩ : JL.Point) → m = 9) := by decide
    exact hall i (by omega) hieq
  have hj0 : j = 0 := by
    have hall : ∀ m, m < 11 →
        ((JL.run2.2.streamlines.getD 0 JL.junkSl).points.getD m JL.junkP =
          (⟨4, 12, some (-1)⟩ : JL.Point) → m = 0) := by decide
    exact hall j (by omega) hjeq
  subst hi9
  subst hj0
  omega

/-- Claim C2 amended: the occupancy grid holds, per accepted streamline,
the union of (1) the every-iSteps-th subsampling of its points taken once
at acceptance time — `addStreamline` inserts exactly the points at indices
0, iSteps, 2·iSteps, ... — and (2) EVERY point committed by later
successful `step` calls on the already-accepted streamline: the commit loop
inserts each point of the chunk, not an iSteps-th subsample, so after a
later-level extension the grid is strictly denser than any subsampling. -/
theorem claim2_theorem :
    (∀ (ctx : JL.Ctx) (st : JL.St) (sl : JL.Streamline), sl.index = none →
      ∀ q, q ∈ JL.entriesOf (JL.addStreamline ctx st sl).grid st.streamlines.length ↔
        q ∈ JL.entriesOf st.grid st.streamlines.length ∨
          ∃ i, i ∈ JL.stepRange sl.points.length ctx.iSteps ∧
            sl.points.getD i JL.junkP = q) ∧
    (∀ (ctx : JL.Ctx) (level : ℤ) (lf : ℕ) (grid : JL.Grid) (sl : JL.Streamline)
      (direction : ℤ) (g2 : JL.Grid) (sl2 : JL.Streamline) (k : ℕ),
      sl.index = some k →
      JL.step ctx level lf grid sl direction = (true, g2, sl2) →
      ∃ chunk : List JL.Point,
        (0 < direction → sl2.points = sl.points ++ chunk) ∧
        (¬ 0 < direction → sl2.points = chunk.reverse ++ sl.points) ∧
        (∀ q, q ∈ JL.entriesOf g2 k ↔ q ∈ JL.entriesOf grid k ∨ q ∈ chunk)) := by
  constructor
  · intro ctx st sl h q
    have hA : JL.addStreamline ctx st sl =
        { streamlines := st.streamlines ++ [{ sl with index := some st.streamlines.length }],
          grid := (JL.stepRange sl.points.length ctx.iSteps).foldl
            (fun g i => JL.addPointGrid ctx g (sl.points.getD i JL.junkP)
              st.streamlines.length) st.grid } := by
      simp only [JL.addStreamline, h]
    rw [hA]
    refine (mem_entriesOf_foldl_addPoint ctx st.streamlines.length st.streamlines.length
      (fun i => sl.points.getD i JL.junkP) (JL.stepRange sl.points.length ctx.iSteps)
      st.grid q).trans ?_
    constructor
    · rintro (hg | ⟨h1, i, hi, hf⟩)
      · exact Or.inl hg
      · exact Or.inr ⟨i, hi, hf⟩
    · rintro (hg | ⟨i, hi, hf⟩)
      · exact Or.inl hg
      · exact Or.inr ⟨rfl, i, hi, hf⟩
  · intro ctx level lf grid sl direction g2 sl2 k h hstep
    simp only [JL.step] at hstep
    by_cases hs : (JL.sampleP ctx.F (if direction > 0 then sl.points.getLastD JL.junkP
        else sl.points.headD JL.junkP)).isSome
    · rw [if_pos hs] at hstep
      rcases hc : JL.chunkLoop ctx lf grid sl direction lf
          (if direction > 0 then sl.points.getLastD JL.junkP else sl.points.headD JL.junkP) []
        with ⟨op, steps⟩
      rw [hc] at hstep
      cases op with
      | none => simp at hstep
      | some p =>
        simp only [Prod.mk.injEq] at hstep
        obtain ⟨-, hg2, hsl2⟩ := hstep
        obtain ⟨c1, c2, c3, c4⟩ := commitSteps_spec ctx level direction k steps grid sl h
        refine ⟨steps.map (JL.tagLevel level), fun hd => ?_, fun hd => ?_, fun q => ?_⟩
        · rw [← hsl2]
          exact c2 hd
        · rw [← hsl2]
          exact c3 hd
        · rw [← hg2]
          exact c4 q
    · rw [if_neg hs] at hstep
      simp at hstep

unseal Rat.add Rat.mul Rat.inv Rat.sub Rat.ofScientific in
/-- Claim C2 witness: the amended characterization applied to concrete
inputs: accepting a 3-point streamline into an empty state puts its
subsampled point 0 into the grid, and a concrete successful step on an
accepted streamline appends its committed chunk. -/
theorem claim2_witness :
    ((⟨0, 0, some 0⟩ : JL.Point) ∈
      JL.entriesOf (JL.addStreamline JL.ctxW ⟨[], []⟩ JL.slW3).grid 0) ∧
    ∃ chunk : List JL.Point,
      ((JL.step JL.ctxW 0 1 [] JL.slWacc 1).2.2).points = JL.slWacc.points ++ chunk := by
  constructor
  · exact (claim2_theorem.1 JL.ctxW ⟨[], []⟩ JL.slW3 rfl ⟨0, 0, some 0⟩).mpr
      (Or.inr ⟨0, by decide, by decide⟩)
  · have h1 : (JL.step JL.ctxW 0 1 [] JL.slWacc 1).1 = true := by decide
    have he : JL.step JL.ctxW 0 1 [] JL.slWacc 1 =
        (true, (JL.step JL.ctxW 0 1 [] JL.slWacc 1).2.1,
          (JL.step JL.ctxW 0 1 [] JL.slWacc 1).2.2) := by
      rw [← h1]
    obtain ⟨chunk, hc1, hc2, hc3⟩ := claim2_theorem.2 JL.ctxW 0 1 [] JL.slWacc 1
      ((JL.step JL.ctxW 0 1 [] JL.slWacc 1).2.1) ((JL.step JL.ctxW 0 1 [] JL.slWacc 1).2.2)
      0 rfl he
    exact ⟨chunk, hc1 (by norm_num)⟩

unseal Rat.add Rat.mul Rat.inv Rat.sub Rat.ofScientific in
/-- Claim C1 counterexample: in run1 the driver accepts two distinct
streamlines whose points (7th of A, at (6,4), and 5th of B, at (6,5)) both
carry level 0, yet their distance is 1, strictly below
dTest·2^0 = dSep·testFactor = 2 even after subtracting a tolerance of 1/2:
B's point was only tested against A's occupancy-grid entries (the
every-iSteps-th subsample, at x = 0,4,8,12,16), never against A's
intermediate points, so it passes between two grid entries at distance
exactly dTest from each while coming within distance 1 of the streamline
itself. -/
theorem claim1_counterexample :
    (JL.run1.1.streamlines.getD 0 JL.junkSl).index ≠
      (JL.run1.1.streamlines.getD 1 JL.junkSl).index ∧
    ((JL.run1.1.streamlines.getD 0 JL.junkSl).points.getD 3 JL.junkP).level = some 0 ∧
    ((JL.run1.1.streamlines.getD 1 JL.junkSl).points.getD 4 JL.junkP).level = some 0 ∧
    JL.geomRun1.dist
      (((JL.run1.1.streamlines.getD 0 JL.junkSl).points.getD 3 JL.junkP).x,
       ((JL.run1.1.streamlines.getD 0 JL.junkSl).points.getD 3 JL.junkP).y)
      (((JL.run1.1.streamlines.getD 1 JL.junkSl).points.getD 4 JL.junkP).x,
       ((JL.run1.1.streamlines.getD 1 JL.junkSl).points.getD 4 JL.junkP).y) + 1/2
      < JL.run1.1.dSep * JL.smallParams.testFactor := by
  decide

/-- isPointGood implies the point has a flow sample. -/
theorem isPointGood_isSome (ctx : JL.Ctx) (lf : ℕ) (grid : JL.Grid) (p : JL.Point)
    (sep : ℚ) (owner : Option ℕ)
    (h : JL.isPointGood ctx lf grid p sep owner = true) :
    (JL.sampleP ctx.F p).isSome := by
  unfold JL.isPointGood at h
  by_cases hs : (JL.sampleP ctx.F p).isSome
  · exact hs
  · rw [if_neg hs] at h
    cases h

/-- isPointGood implies its Prop content: every scanned grid entry of a
different streamline is at distance at least sep. -/
theorem isPointGood_scannedOk (ctx : JL.Ctx) (lf : ℕ) (grid : JL.Grid) (p : JL.Point)
    (sep : ℚ) (owner : Option ℕ)
    (h : JL.isPointGood ctx lf grid p sep owner = true) :
    JL.scannedOk ctx lf grid p sep owner := by
  have hs := isPointGood_isSome ctx lf grid p sep owner h
  unfold JL.isPointGood at h
  rw [if_pos hs] at h
  unfold JL.scannedOk
  intro i hi row hrow j hj es hes gp hgp hne
  have h1 := List.all_eq_true.mp h i hi
  rw [hrow] at h1
  have h2 := List.all_eq_true.mp h1 j hj
  rw [hes] at h2
  have h3 := List.all_eq_true.mp h2 gp hgp
  rw [Bool.not_eq_true', Bool.and_eq_false_iff] at h3
  rcases h3 with h3 | h3
  · rw [decide_eq_false_iff_not] at h3
    exact absurd hne h3
  · rw [decide_eq_false_iff_not] at h3
    exact not_lt.mp h3

/-- every candidate accumulated by the chunk-collection loop of `step`
passed isPointGood against the (unchanged) occupancy grid at separation
dTest·levelFactor with the streamline's own index excluded. -/
theorem chunkLoop_good (ctx : JL.Ctx) (lf : ℕ) (grid : JL.Grid) (sl : JL.Streamline)
    (direction : ℤ) :
    ∀ (fuel : ℕ) (pLast : JL.Point) (steps : List JL.Point),
      (∀ q ∈ steps, JL.isPointGood ctx lf grid q (ctx.dTest * (lf : ℚ)) sl.index = true) →
      ∀ q ∈ (JL.chunkLoop ctx lf grid sl direction fuel pLast steps).2,
        JL.isPointGood ctx lf grid q (ctx.dTest * (lf : ℚ)) sl.index = true := by
  intro fuel
  induction fuel with
  | zero =>
    intro pLast steps h q hq
    exact h q hq
  | succ fuel ih =>
    intro pLast steps h q hq
    rw [JL.chunkLoop] at hq
    by_cases c1 : steps.length < ctx.iSteps * lf
    · rw [if_pos c1] at hq
      by_cases c2 : (JL.transport ctx.F ctx.geom pLast
          ⟨ctx.dSep * (direction : ℚ), ctx.iSteps, ctx.minMag⟩).length = ctx.iSteps
      · rw [if_pos c2] at hq
        by_cases c3 : (JL.transport ctx.F ctx.geom pLast
            ⟨ctx.dSep * (direction : ℚ), ctx.iSteps, ctx.minMag⟩).all
            (fun ip => JL.isPointGood ctx lf grid ip (ctx.dTest * (lf : ℚ)) sl.index) = true
        · rw [if_pos c3] at hq
          have hall : ∀ r ∈ steps ++ JL.transport ctx.F ctx.geom pLast
              ⟨ctx.dSep * (direction : ℚ), ctx.iSteps, ctx.minMag⟩,
              JL.isPointGood ctx lf grid r (ctx.dTest * (lf : ℚ)) sl.index = true := by
            intro r hr
            rcases List.mem_append.mp hr with h1 | h2
            · exact h r h1
            · exact List.all_eq_true.mp c3 r h2
          by_cases c4 : JL.isStreamPointGood ctx lf sl
              ((JL.transport ctx.F ctx.geom pLast
                ⟨ctx.dSep * (direction : ℚ), ctx.iSteps, ctx.minMag⟩).getLastD pLast)
              (steps ++ JL.transport ctx.F ctx.geom pLast
                ⟨ctx.dSep * (direction : ℚ), ctx.iSteps, ctx.minMag⟩) = true
          · rw [if_pos c4] at hq
            exact ih _ _ hall q hq
          · rw [if_neg c4] at hq
            exact hall q hq
        · rw [if_neg c3] at hq
          exact h q hq
      · rw [if_neg c2] at hq
        exact h q hq
    · rw [if_neg c1] at hq
      exact h q hq

/-- commitSteps appends (direction > 0) or prepends in reverse the tagged
candidates to the streamline's point list, for any streamline. -/
theorem commitSteps_points (ctx : JL.Ctx) (level direction : ℤ) :
    ∀ (steps : List JL.Point) (g : JL.Grid) (sl : JL.Streamline),
      (0 < direction →
        (JL.commitSteps ctx level direction steps (g, sl)).2.points =
          sl.points ++ steps.map (JL.tagLevel level)) ∧
      (¬ 0 < direction →
        (JL.commitSteps ctx level direction steps (g, sl)).2.points =
          (steps.map (JL.tagLevel level)).reverse ++ sl.points) := by
  intro steps
  induction steps with
  | nil =>
    intro g sl
    exact ⟨fun _ => by simp [JL.commitSteps], fun _ => by simp [JL.commitSteps]⟩
  | cons ip rest ih =>
    intro g sl
    have hstep : JL.commitSteps ctx level direction (ip :: rest) (g, sl) =
        JL.commitSteps ctx level direction rest
          ((match sl.index with
            | some k => JL.addPointGrid ctx g (JL.tagLevel level ip) k
            | none => g),
           sl.addPoint (JL.tagLevel level ip) direction) := by
      simp only [JL.commitSteps, List.foldl_cons]
      rfl
    obtain ⟨ih1, ih2⟩ := ih ((match sl.index with
      | some k => JL.addPointGrid ctx g (JL.tagLevel level ip) k
      | none => g)) (sl.addPoint (JL.tagLevel level ip) direction)
    rw [hstep]
    constructor
    · intro hd
      rw [ih1 hd]
      have hpts : (sl.addPoint (JL.tagLevel level ip) direction).points =
          sl.points ++ [JL.tagLevel level ip] := by
        unfold JL.Streamline.addPoint
        rw [if_pos hd]
      rw [hpts, List.append_assoc]
      rfl
    · intro hd
      rw [ih2 hd]
      have hpts : (sl.addPoint (JL.tagLevel level ip) direction).points =
          JL.tagLevel level ip :: sl.points := by
        unfold JL.Streamline.addPoint
        rw [if_neg hd]
      rw [hpts, List.map_cons, List.reverse_cons, List.append_assoc]
      rfl

/-- Claim C1 amended: the separation the driver actually enforces is
against occupancy-grid entries only, within the scanned window: every point
a successful step(sl, direction) at level l adds to sl is either an old
point or a point with a flow sample whose distance to every occupancy-grid
entry of a DIFFERENT streamline inside isPointGood's scan window (at the
time of the call) is at least dTest·levelFactor = dTest·2^(-l).  Points of
other streamlines that are not in the grid (the non-subsampled ones) are
never tested, which is what the counterexample exploits. -/
theorem claim1_theorem (ctx : JL.Ctx) (level : ℤ) (lf : ℕ) (grid : JL.Grid)
    (sl : JL.Streamline) (direction : ℤ) (g2 : JL.Grid) (sl2 : JL.Streamline)
    (h : JL.step ctx level lf grid sl direction = (true, g2, sl2)) :
    ∀ p ∈ sl2.points, p ∈ sl.points ∨
      ((JL.sampleP ctx.F p).isSome ∧
        JL.scannedOk ctx lf grid p (ctx.dTest * (lf : ℚ)) sl.index) := by
  simp only [JL.step] at h
  by_cases hs : (JL.sampleP ctx.F (if direction > 0 then sl.points.getLastD JL.junkP
      else sl.points.headD JL.junkP)).isSome
  · rw [if_pos hs] at h
    rcases hc : JL.chunkLoop ctx lf grid sl direction lf
        (if direction > 0 then sl.points.getLastD JL.junkP else sl.points.headD JL.junkP) []
      with ⟨op, steps⟩
    rw [hc] at h
    cases op with
    | none => simp at h
    | some q0 =>
      simp only [Prod.mk.injEq] at h
      obtain ⟨-, hg2, hsl2⟩ := h
      have hgood : ∀ q ∈ steps,
          JL.isPointGood ctx lf grid q (ctx.dTest * (lf : ℚ)) sl.index = true := by
        intro q hq
        have hg := chunkLoop_good ctx lf grid sl direction lf
          (if direction > 0 then sl.points.getLastD JL.junkP else sl.points.headD JL.junkP) []
          (fun r hr => absurd hr (List.not_mem_nil r)) q
        rw [hc] at hg
        exact hg hq
      obtain ⟨cp1, cp2⟩ := commitSteps_points ctx level direction steps grid sl
      intro p hp
      rw [← hsl2] at hp
      by_cases hd : 0 < direction
      · rw [cp1 hd] at hp
        rcases List.mem_append.mp hp with h1 | h2
        · exact Or.inl h1
        · obtain ⟨ip, hip, rfl⟩ := List.mem_map.mp h2
          exact Or.inr ⟨isPointGood_isSome _ _ _ _ _ _ (hgood ip hip),
            isPointGood_scannedOk _ _ _ _ _ _ (hgood ip hip)⟩
      · rw [cp2 hd] at hp
        rcases List.mem_append.mp hp with h1 | h2
        · obtain ⟨ip, hip, rfl⟩ := List.mem_map.mp (List.mem_reverse.mp h1)
          exact Or.inr ⟨isPointGood_isSome _ _ _ _ _ _ (hgood ip hip),
            isPointGood_scannedOk _ _ _ _ _ _ (hgood ip hip)⟩
        · exact Or.inl h2
  · rw [if_neg hs] at h
    simp at h

unseal Rat.add Rat.mul Rat.inv Rat.sub Rat.ofScientific in
/-- Claim C1 witness: the amended separation guarantee applied to a
concrete successful step that commits the point (0, 2) at level 0. -/
theorem claim1_witness :
    (⟨0, 2, some 0⟩ : JL.Point) ∈ ((JL.step JL.ctxW 0 1 [] JL.slW 1).2.2).points ∧
    ((⟨0, 2, some 0⟩ : JL.Point) ∈ JL.slW.points ∨
      ((JL.sampleP JL.ctxW.F ⟨0, 2, some 0⟩).isSome ∧
        JL.scannedOk JL.ctxW 1 [] ⟨0, 2, some 0⟩ (JL.ctxW.dTest * (1 : ℚ)) JL.slW.index)) := by
  have h1 : (JL.step JL.ctxW 0 1 [] JL.slW 1).1 = true := by decide
  have he : JL.step JL.ctxW 0 1 [] JL.slW 1 =
      (true, (JL.step JL.ctxW 0 1 [] JL.slW 1).2.1, (JL.step JL.ctxW 0 1 [] JL.slW 1).2.2) := by
    rw [← h1]
  have hm : (⟨0, 2, some 0⟩ : JL.Point) ∈
      ((JL.step JL.ctxW 0 1 [] JL.slW 1).2.2).points := by decide
  exact ⟨hm, claim1_theorem JL.ctxW 0 1 [] JL.slW 1 _ _ he ⟨0, 2, some 0⟩ hm⟩

/-- a fold preserves any invariant maintained by each step of the fold. -/
theorem foldl_pres {α β : Type} (P : β → Prop) (f : β → α → β)
    (hf : ∀ s a, P s → P (f s a)) : ∀ (l : List α) (s : β), P s → P (l.foldl f s)
  | [], _, h => h
  | a :: l, s, h => foldl_pres P f hf l (f s a) (hf s a h)

/-- step only ever adds points that have a flow sample (they all passed
isPointGood): a fully sampled streamline stays fully sampled. -/
theorem step_slSampled (ctx : JL.Ctx) (level : ℤ) (lf : ℕ) (grid : JL.Grid)
    (sl : JL.Streamline) (d : ℤ) (hsl : JL.slSampled ctx.F sl) :
    JL.slSampled ctx.F (JL.step ctx level lf grid sl d).2.2 := by
  simp only [JL.step]
  by_cases hs : (JL.sampleP ctx.F (if d > 0 then sl.points.getLastD JL.junkP
      else sl.points.headD JL.junkP)).isSome
  · rw [if_pos hs]
    rcases hc : JL.chunkLoop ctx lf grid sl d lf
        (if d > 0 then sl.points.getLastD JL.junkP else sl.points.headD JL.junkP) []
      with ⟨op, steps⟩
    cases op with
    | none => exact hsl
    | some q0 =>
      have hgood : ∀ q ∈ steps,
          JL.isPointGood ctx lf grid q (ctx.dTest * (lf : ℚ)) sl.index = true := by
        intro q hq
        have hg := chunkLoop_good ctx lf grid sl d lf
          (if d > 0 then sl.points.getLastD JL.junkP else sl.points.headD JL.junkP) []
          (fun r hr => absurd hr (List.not_mem_nil r)) q
        rw [hc] at hg
        exact hg hq
      obtain ⟨cp1, cp2⟩ := commitSteps_points ctx level d steps grid sl
      show JL.slSampled ctx.F (JL.commitSteps ctx level d steps (grid, sl)).2
      intro p hp
      by_cases hd : 0 < d
      · rw [cp1 hd] at hp
        rcases List.mem_append.mp hp with h1 | h2
        · exact hsl p h1
        · obtain ⟨ip, hip, rfl⟩ := List.mem_map.mp h2
          exact isPointGood_isSome _ _ _ _ _ _ (hgood ip hip)
      · rw [cp2 hd] at hp
        rcases List.mem_append.mp hp with h1 | h2
        · obtain ⟨ip, hip, rfl⟩ := List.mem_map.mp (List.mem_reverse.mp h1)
          exact isPointGood_isSome _ _ _ _ _ _ (hgood ip hip)
        · exact hsl p h2
  · rw [if_neg hs]
    exact hsl

/-- the extension loop in one direction preserves full sampledness. -/
theorem extendDir_slSampled (ctx : JL.Ctx) (level : ℤ) (lf : ℕ) (d : ℤ) :
    ∀ (fuel : ℕ) (grid : JL.Grid) (sl : JL.Streamline), JL.slSampled ctx.F sl →
      JL.slSampled ctx.F (JL.extendDir ctx level lf d fuel grid sl).2.1 := by
  intro fuel
  induction fuel with
  | zero => intro grid sl h; exact h
  | succ n ih =>
    intro grid sl h
    simp only [JL.extendDir]
    by_cases hr : (JL.step ctx level lf grid sl d).1 = true
    · rw [if_pos hr]
      exact ih _ _ (step_slSampled ctx level lf grid sl d h)
    · rw [if_neg hr]
      exact step_slSampled ctx level lf grid sl d h

/-- extend (forward then backward) preserves full sampledness. -/
theorem extend_slSampled (ctx : JL.Ctx) (level : ℤ) (lf : ℕ) (fuel : ℕ)
    (grid : JL.Grid) (sl : JL.Streamline) (h : JL.slSampled ctx.F sl) :
    JL.slSampled ctx.F (JL.extend ctx level lf fuel grid sl).2.1 :=
  extendDir_slSampled ctx level lf (-1) fuel _ _
    (extendDir_slSampled ctx level lf 1 fuel grid sl h)

/-- a streamline initialised from a sampled seed is fully sampled. -/
theorem init_slSampled (F : ℚ → ℚ → Option JL.Flow) (seed : JL.Point) (level : ℤ)
    (h : (JL.sampleP F seed).isSome = true) :
    JL.slSampled F (JL.Streamline.init seed level) := by
  intro p hp
  simp only [JL.Streamline.init, List.mem_singleton] at hp
  subst hp
  exact h

/-- addStreamline preserves full sampledness when the accepted streamline is
itself fully sampled. -/
theorem addStreamline_stSampled (ctx : JL.Ctx) (st : JL.St) (sl : JL.Streamline)
    (hst : JL.stSampled ctx.F st) (hsl : JL.slSampled ctx.F sl) :
    JL.stSampled ctx.F (JL.addStreamline ctx st sl) := by
  simp only [JL.addStreamline]
  cases hidx : sl.index with
  | some k => exact hst
  | none =>
    intro s hs
    rcases List.mem_append.mp hs with h1 | h2
    · exact hst s h1
    · rw [List.mem_singleton] at h2
      subst h2
      intro p hp
      exact hsl p hp

/-- harvestK preserves full sampledness: a perpendicular candidate
streamline is only grown from a seed that passed isPointGood, so its seed
has a sample and step adds only sampled points. -/
theorem harvestK_stSampled (ctx : JL.Ctx) (level : ℤ) (lf : ℕ) (dSepEff : ℚ)
    (fuel : ℕ) (pt : JL.Point) (dir : ℚ) (st : JL.St) (k : ℕ)
    (hst : JL.stSampled ctx.F st) :
    JL.stSampled ctx.F (JL.harvestK ctx level lf dSepEff fuel pt dir st k) := by
  simp only [JL.harvestK]
  split
  · rename_i hgd
    split
    · refine addStreamline_stSampled ctx _ _ ?_ ?_
      · exact hst
      · exact extend_slSampled ctx level lf fuel _ _
          (init_slSampled ctx.F _ level (isPointGood_isSome _ _ _ _ _ _ hgd))
    · exact hst
  · exact hst

/-- the streamline-walking seed-harvest loop preserves full sampledness. -/
theorem whileSli_stSampled (ctx : JL.Ctx) (level : ℤ) (lf : ℕ) (dSepEff : ℚ)
    (extFuel : ℕ) :
    ∀ (fuel sli : ℕ) (st : JL.St), JL.stSampled ctx.F st →
      JL.stSampled ctx.F (JL.whileSli ctx level lf dSepEff extFuel fuel sli st) := by
  intro fuel
  induction fuel with
  | zero => intro sli st h; exact h
  | succ n ih =>
    intro sli st h
    simp only [JL.whileSli]
    split
    · refine ih (sli + 1) _ ?_
      refine foldl_pres (fun s : JL.St => JL.stSampled ctx.F s) _ ?_ _ _ h
      intro s pn hs
      exact harvestK_stSampled ctx level lf dSepEff extFuel _ _ _ 1
        (harvestK_stSampled ctx level lf dSepEff extFuel _ _ _ 0 hs)
    · exact h

/-- the per-seed loop body preserves full sampledness of the driver state
(kept seeds are re-checked with isPointGood before ever seeding a
streamline, so they need no invariant of their own). -/
theorem seedStep_stSampled (ctx : JL.Ctx) (level : ℤ) (lf : ℕ) (dSepEff : ℚ)
    (fuel : ℕ) (acc : JL.SeedLoopSt) (seed : JL.Point)
    (hst : JL.stSampled ctx.F acc.st) :
    JL.stSampled ctx.F (JL.seedStep ctx level lf dSepEff fuel acc seed).st := by
  simp only [JL.seedStep]
  split
  · rename_i hgd
    split
    · refine addStreamline_stSampled ctx _ _ ?_ ?_
      · exact whileSli_stSampled ctx level lf dSepEff fuel fuel acc.slStart acc.st hst
      · exact extend_slSampled ctx level lf fuel _ _
          (init_slSampled ctx.F seed level (isPointGood_isSome _ _ _ _ _ _ hgd))
    · exact whileSli_stSampled ctx level lf dSepEff fuel fuel acc.slStart acc.st hst
  · split
    · exact whileSli_stSampled ctx level lf dSepEff fuel fuel acc.slStart acc.st hst
    · exact whileSli_stSampled ctx level lf dSepEff fuel fuel acc.slStart acc.st hst

/-- one level pass preserves full sampledness of the driver state. -/
theorem levelPass_stSampled (ctx : JL.Ctx) (fuel : ℕ) (acc : JL.St × List JL.Point)
    (level : ℤ) (h : JL.stSampled ctx.F acc.1) :
    JL.stSampled ctx.F (JL.levelPass ctx fuel acc level).1 := by
  simp only [JL.levelPass]
  refine foldl_pres (fun a : JL.SeedLoopSt => JL.stSampled ctx.F a.st) _ ?_ _ _ ?_
  · intro s sd hs
    exact seedStep_stSampled ctx level _ _ fuel s sd hs
  · refine foldl_pres (fun s : JL.St => JL.stSampled ctx.F s) _ ?_ _ _ h
    intro s i hs t ht
    have ht2 : t ∈ s.streamlines.set i
        (JL.extend ctx level (2 ^ (-level).toNat) fuel s.grid
          (s.streamlines.getD i JL.junkSl)).2.1 := ht
    by_cases hlen : i < s.streamlines.length
    · rcases List.mem_or_eq_of_mem_set ht2 with h1 | h2
      · exact hs t h1
      · subst h2
        refine extend_slSampled ctx level _ fuel _ _ ?_
        have hm : s.streamlines.getD i JL.junkSl ∈ s.streamlines := by
          rw [List.getD_eq_getElem s.streamlines JL.junkSl hlen]
          exact List.getElem_mem hlen
        exact hs _ hm
    · rw [List.set_eq_of_length_le (Nat.le_of_not_lt hlen)] at ht2
      exact hs t ht2

/-- every streamline in the final driver state of generate is fully
sampled: the accumulator starts empty and every level pass preserves the
property. -/
theorem generateFull_stSampled (geom : JL.Geom) (fld : JL.FieldI) (par : JL.Params)
    (fuel : ℕ) :
    JL.stSampled fld.sample (JL.generateFull geom fld par fuel).2 := by
  refine foldl_pres (fun a : JL.St × List JL.Point => JL.stSampled fld.sample a.1)
    _ ?_ _ _ ?_
  · intro s lv hs
    exact levelPass_stSampled _ fuel s lv hs
  · intro sl hsl
    exact absurd hsl (List.not_mem_nil sl)

/-- Claim C9: every point of every streamline returned by generate has a
flow sample: streamlines grow only from seeds that passed isPointGood
(which requires a sample) and by step candidates that all passed
isPointGood, so a field lookup at any output point cannot miss. -/
theorem claim9_theorem (geom : JL.Geom) (fld : JL.FieldI) (par : JL.Params)
    (fuel : ℕ) (sl : JL.Streamline)
    (hsl : sl ∈ (JL.generate geom fld par fuel).streamlines)
    (p : JL.Point) (hp : p ∈ sl.points) :
    (fld.sample p.x p.y).isSome = true :=
  generateFull_stSampled geom fld par fuel sl hsl p hp

unseal Rat.add Rat.mul Rat.inv Rat.sub Rat.ofScientific in
/-- Claim C9 witness: sampledness of the first point of the first
streamline of the concrete run-1 output. -/
theorem claim9_witness :
    (JL.run1.1.streamlines.getD 0 JL.junkSl) ∈
        (JL.generate JL.geomRun1 JL.fieldRun1 JL.smallParams 20).streamlines ∧
    ((JL.run1.1.streamlines.getD 0 JL.junkSl).points.getD 0 JL.junkP) ∈
        (JL.run1.1.streamlines.getD 0 JL.junkSl).points ∧
    (JL.fieldRun1.sample ((JL.run1.1.streamlines.getD 0 JL.junkSl).points.getD 0 JL.junkP).x
        ((JL.run1.1.streamlines.getD 0 JL.junkSl).points.getD 0 JL.junkP).y).isSome = true := by
  have h1 : (JL.run1.1.streamlines.getD 0 JL.junkSl) ∈
      (JL.generate JL.geomRun1 JL.fieldRun1 JL.smallParams 20).streamlines := by decide
  have h2 : ((JL.run1.1.streamlines.getD 0 JL.junkSl).points.getD 0 JL.junkP) ∈
      (JL.run1.1.streamlines.getD 0 JL.junkSl).points := by decide
  exact ⟨h1, h2, claim9_theorem JL.geomRun1 JL.fieldRun1 JL.smallParams 20 _ h1 _ h2⟩
